import Mathlib

/-!
Verification development for the gumgum PDF engine.

The Go sources are shallowly embedded: pure functions become Lean
functions, mutation becomes explicit state passing, `float64` scalars are
modelled as exact rationals (the claims under study are algebraic identities
over the stored values), byte values are naturals reduced mod 256, and Go's
`(value, error)` returns become `Except String`.
-/

namespace Gumgum

/-! ## Matrices — pkg/graphics/path.go

`type Matrix [6]float64` stores the affine matrix [A B 0; C D 0; E F 1];
the six array slots 0..5 are the fields a..f below.
-/

structure Matrix where
  a : ℚ
  b : ℚ
  c : ℚ
  d : ℚ
  e : ℚ
  f : ℚ
deriving DecidableEq

/-- `func Identity() Matrix` -/
def Identity : Matrix := ⟨1, 0, 0, 1, 0, 0⟩

/-- `func Translate(tx, ty float64) Matrix` -/
def Translate (tx ty : ℚ) : Matrix := ⟨1, 0, 0, 1, tx, ty⟩

/-- `func Scale(sx, sy float64) Matrix` -/
def ScaleM (sx sy : ℚ) : Matrix := ⟨sx, 0, 0, sy, 0, 0⟩

/-- `func (m Matrix) Multiply(other Matrix) Matrix` : result = m * other. -/
def Matrix.Multiply (m other : Matrix) : Matrix :=
  ⟨m.a * other.a + m.b * other.c,
   m.a * other.b + m.b * other.d,
   m.c * other.a + m.d * other.c,
   m.c * other.b + m.d * other.d,
   m.e * other.a + m.f * other.c + other.e,
   m.e * other.b + m.f * other.d + other.f⟩

/-- `func (m Matrix) Transform(x, y float64) (float64, float64)` -/
def Matrix.Transform (m : Matrix) (x y : ℚ) : ℚ × ℚ :=
  (m.a * x + m.c * y + m.e, m.b * x + m.d * y + m.f)

structure Point where
  x : ℚ
  y : ℚ
deriving DecidableEq

/-- `func (m Matrix) TransformPoint(p Point) Point` -/
def Matrix.TransformPoint (m : Matrix) (p : Point) : Point :=
  ⟨m.a * p.x + m.c * p.y + m.e, m.b * p.x + m.d * p.y + m.f⟩

/-! ## Paths — pkg/graphics/path.go -/

inductive PathOp where
  | MoveTo
  | LineTo
  | CurveTo
  | Close
deriving DecidableEq

structure PathSegment where
  Op : PathOp
  Points : List Point
deriving DecidableEq

/-- `type Path struct { Segments []PathSegment; current, start Point }` -/
structure Path where
  Segments : List PathSegment
  current : Point
  start : Point
deriving DecidableEq

/-- `func NewPath() *Path` (Go zero value). -/
def NewPath : Path := ⟨[], ⟨0, 0⟩, ⟨0, 0⟩⟩

/-- `func (p *Path) Clone() *Path` — deep copy; in the functional model the
rebuilt segments are the same values. -/
def Path.Clone (p : Path) : Path :=
  ⟨p.Segments.map (fun seg => ⟨seg.Op, seg.Points.map id⟩), p.current, p.start⟩

/-- `func (p *Path) MoveTo(x, y float64)` -/
def Path.MoveTo (p : Path) (x y : ℚ) : Path :=
  ⟨p.Segments ++ [⟨PathOp.MoveTo, [⟨x, y⟩]⟩], ⟨x, y⟩, ⟨x, y⟩⟩

/-- `func (p *Path) LineTo(x, y float64)` -/
def Path.LineTo (p : Path) (x y : ℚ) : Path :=
  ⟨p.Segments ++ [⟨PathOp.LineTo, [⟨x, y⟩]⟩], ⟨x, y⟩, p.start⟩

/-- `func (p *Path) CurveTo(cp1x, cp1y, cp2x, cp2y, endX, endY float64)` -/
def Path.CurveTo (p : Path) (cp1x cp1y cp2x cp2y endX endY : ℚ) : Path :=
  ⟨p.Segments ++ [⟨PathOp.CurveTo, [⟨cp1x, cp1y⟩, ⟨cp2x, cp2y⟩, ⟨endX, endY⟩]⟩],
   ⟨endX, endY⟩, p.start⟩

/-- `func (p *Path) CurveToV(cp2x, cp2y, endX, endY float64)` -/
def Path.CurveToV (p : Path) (cp2x cp2y endX endY : ℚ) : Path :=
  p.CurveTo p.current.x p.current.y cp2x cp2y endX endY

/-- `func (p *Path) CurveToY(cp1x, cp1y, endX, endY float64)` -/
def Path.CurveToY (p : Path) (cp1x cp1y endX endY : ℚ) : Path :=
  p.CurveTo cp1x cp1y endX endY endX endY

/-- `func (p *Path) Close()` -/
def Path.Close (p : Path) : Path :=
  ⟨p.Segments ++ [⟨PathOp.Close, []⟩], p.start, p.start⟩

/-- `func (p *Path) Rect(x, y, width, height float64)` -/
def Path.Rect (p : Path) (x y width height : ℚ) : Path :=
  ((((p.MoveTo x y).LineTo (x + width) y).LineTo (x + width) (y + height)).LineTo
    x (y + height)).Close

/-- `func (p *Path) Clear()` -/
def Path.Clear (_ : Path) : Path := ⟨[], ⟨0, 0⟩, ⟨0, 0⟩⟩

/-- `func (p *Path) CurrentPoint() Point` -/
def Path.CurrentPoint (p : Path) : Point := p.current

/-- `func (p *Path) Transform(m Matrix) *Path` -/
def Path.Transform (p : Path) (m : Matrix) : Path :=
  let segs := p.Segments.map (fun seg => ⟨seg.Op, seg.Points.map m.TransformPoint⟩)
  if p.Segments.length > 0 then
    ⟨segs, m.TransformPoint p.current, m.TransformPoint p.start⟩
  else
    ⟨segs, NewPath.current, NewPath.start⟩

inductive FillRule where
  | NonZero
  | EvenOdd
deriving DecidableEq

/-! ## Colors — pkg/graphics (color part of path.go) -/

/-- `func clamp(v, min, max float64) float64` -/
def clamp (v low high : ℚ) : ℚ :=
  if v < low then low else if v > high then high else v

/-- `type Color struct { Space ColorSpace; Components []float64 }`
(`ColorSpace` is a string type). -/
structure Color where
  Space : String
  Components : List ℚ
deriving DecidableEq

/-- `func NewGray(gray float64) Color` -/
def NewGray (gray : ℚ) : Color := ⟨"DeviceGray", [clamp gray 0 1]⟩

/-- `func NewRGB(r, g, b float64) Color` -/
def NewRGB (r g b : ℚ) : Color :=
  ⟨"DeviceRGB", [clamp r 0 1, clamp g 0 1, clamp b 0 1]⟩

/-- `func NewCMYK(c, m, y, k float64) Color` -/
def NewCMYK (c m y k : ℚ) : Color :=
  ⟨"DeviceCMYK", [clamp c 0 1, clamp m 0 1, clamp y 0 1, clamp k 0 1]⟩

/-- `func Black() Color` -/
def Black : Color := NewGray 0

/-! ## Graphics state — pkg/graphics/state.go -/

/-- `type TextState struct` — text-specific state. -/
structure TextState where
  CharSpace : ℚ
  WordSpace : ℚ
  HScale : ℚ
  Leading : ℚ
  FontName : String
  FontSize : ℚ
  RenderMode : Int
  Rise : ℚ
  TextMatrix : Matrix
  LineMatrix : Matrix
deriving DecidableEq

/-- `type State struct` — the complete graphics state.
`LineCap`/`LineJoin` are int types, `BlendMode`/`ColorSpace` string types. -/
structure State where
  CTM : Matrix
  ClipPath : Option Path
  StrokeColor : Color
  FillColor : Color
  StrokeColorSpace : String
  FillColorSpace : String
  LineWidth : ℚ
  LineCap : Int
  LineJoin : Int
  MiterLimit : ℚ
  DashPattern : List ℚ
  DashPhase : ℚ
  TState : TextState
  StrokeAlpha : ℚ
  FillAlpha : ℚ
  BlendMode : String
  RenderingIntent : String
  Flatness : ℚ
  Smoothness : ℚ
deriving DecidableEq

/-- `func NewState() *State` — default graphics state. -/
def NewState : State where
  CTM := Identity
  ClipPath := none
  StrokeColor := Black
  FillColor := Black
  StrokeColorSpace := "DeviceGray"
  FillColorSpace := "DeviceGray"
  LineWidth := 1
  LineCap := 0
  LineJoin := 0
  MiterLimit := 10
  DashPattern := []
  DashPhase := 0
  TState :=
    { CharSpace := 0, WordSpace := 0, HScale := 100, Leading := 0,
      FontName := "", FontSize := 0, RenderMode := 0, Rise := 0,
      TextMatrix := Identity, LineMatrix := Identity }
  StrokeAlpha := 1
  FillAlpha := 1
  BlendMode := "Normal"
  RenderingIntent := "RelativeColorimetric"
  Flatness := 1
  Smoothness := 0

/-- `func (s *State) Clone() *State` — shallow copy plus deep copies of the
dash pattern slice and the clip path. -/
def State.Clone (s : State) : State :=
  { s with DashPattern := s.DashPattern.map id, ClipPath := s.ClipPath.map Path.Clone }

theorem path_clone_id (p : Path) : p.Clone = p := by
  cases p with
  | mk segs cur st =>
    simp only [Path.Clone, List.map_id]
    congr 1
    induction segs with
    | nil => rfl
    | cons h t ih => cases h; simp [ih]

theorem state_clone_id (s : State) : s.Clone = s := by
  cases s
  simp [State.Clone, List.map_id]
  cases h : ‹Option Path› <;> simp_all [path_clone_id]

/-! ## State stack — pkg/graphics/state.go

`StateStack.states` appends at the slice tail and the top is the last
element; the model keeps the top at the list head.
-/

/-- `func (s *StateStack) Current() *State` — on an empty stack the source
appends a fresh default state first; the model returns the (state, stack)
pair after that effect. -/
def StackCurrent : List State → State × List State
  | [] => (NewState, [NewState])
  | x :: xs => (x, x :: xs)

/-- `func (s *StateStack) Push()` — PDF q operator. -/
def StackPush (s : List State) : List State :=
  let c := StackCurrent s
  c.1.Clone :: c.2

/-- `func (s *StateStack) Pop()` — PDF Q operator; no-op when only the base
state remains. -/
def StackPop (s : List State) : List State :=
  if s.length > 1 then s.tail else s

/-! ## Content-stream interpreter — src/unnamed/part_003

Operands live in Go as `interface{}` values; the possible dynamic types
produced by `parseOperand` and consumed by `executeOp` are numbers, strings
(also used for names), booleans, nil, and nested value arrays.
-/

inductive Operand where
  | num (x : ℚ)
  | str (s : String)
  | boolean (b : Bool)
  | null
  | arr (l : List Operand)

/-- `type Operator struct { Name string; Operands []interface{} }` -/
structure Operator where
  Name : String
  Operands : List Operand

/-- Abstract Go standard-library primitives used by the interpreter:
`strconv.ParseFloat`, `strconv.Atoi` and `fmt.Sprintf("%v", ...)`.
They are opaque parameters of the model; no claim depends on them. -/
structure GoPrims where
  parseFloat : String → Option ℚ
  parseInt : String → Option Int
  sprintf : Operand → String

/-- Go `int(x)` conversion of a float truncates toward zero. -/
def goTrunc (q : ℚ) : Int := q.num.tdiv q.den

/-- `func toFloat(v interface{}) float64` -/
def toFloat (P : GoPrims) : Operand → ℚ
  | .num x => x
  | .str s => (P.parseFloat s).getD 0
  | _ => 0

/-- `func toInt(v interface{}) int` -/
def toInt (P : GoPrims) : Operand → Int
  | .num x => goTrunc x
  | .str s => (P.parseInt s).getD 0
  | _ => 0

/-- `func toString(v interface{}) string` -/
def toString (P : GoPrims) : Operand → String
  | .str s => s
  | o => P.sprintf o

/-- Rendering callbacks are modelled as a trace of emitted events. -/
inductive Event where
  | Fill (p : Path) (st : State) (rule : FillRule)
  | Stroke (p : Path) (st : State)
  | Clip (p : Path) (rule : FillRule)
  | Text (s : String) (st : State)
  | Image (name : String) (st : State)

/-- `type Interpreter struct` — state stack and current path. -/
structure Interp where
  stack : List State
  path : Path

/-- `func NewInterpreter() *Interpreter` -/
def NewInterpreter : Interp := ⟨[NewState], NewPath⟩

/-- Writing through the `state := i.stack.Current()` pointer replaces the
top of the (nonempty) stack. -/
def setState (stk : List State) (s : State) : List State := s :: stk.tail

/-- Replace the current (top) state of the interpreter. -/
def updState (i : Interp) (s : State) : Interp := { i with stack := setState i.stack s }

/-- `func (i *Interpreter) parseColor(space ColorSpace, operands []interface{}) Color` -/
def parseColor (P : GoPrims) (space : String) (operands : List Operand) : Color :=
  if space == "DeviceGray" then
    if operands.length ≥ 1 then NewGray (toFloat P (operands.getD 0 .null)) else Black
  else if space == "DeviceRGB" then
    if operands.length ≥ 3 then
      NewRGB (toFloat P (operands.getD 0 .null)) (toFloat P (operands.getD 1 .null))
        (toFloat P (operands.getD 2 .null))
    else Black
  else if space == "DeviceCMYK" then
    if operands.length ≥ 4 then
      NewCMYK (toFloat P (operands.getD 0 .null)) (toFloat P (operands.getD 1 .null))
        (toFloat P (operands.getD 2 .null)) (toFloat P (operands.getD 3 .null))
    else Black
  else Black

/-- `func (i *Interpreter) executeOp(op Operator) error` — the operator
dispatch switch. The source always returns a nil error; callback
invocations become events. `i.applyExtGState` is a placeholder no-op in the
source. -/
def executeOp (P : GoPrims) (ii : Interp) (op : Operator) : Interp × List Event :=
  let c := StackCurrent ii.stack
  let state := c.1
  let i : Interp := { ii with stack := c.2 }
  match op.Name with
  | "q" => ({ i with stack := StackPush i.stack }, [])
  | "Q" => ({ i with stack := StackPop i.stack }, [])
  | "cm" =>
    if op.Operands.length ≥ 6 then
      let m : Matrix :=
        ⟨toFloat P (op.Operands.getD 0 .null), toFloat P (op.Operands.getD 1 .null),
         toFloat P (op.Operands.getD 2 .null), toFloat P (op.Operands.getD 3 .null),
         toFloat P (op.Operands.getD 4 .null), toFloat P (op.Operands.getD 5 .null)⟩
      (updState i { state with CTM := state.CTM.Multiply m }, [])
    else (i, [])
  | "w" =>
    if op.Operands.length ≥ 1 then
      (updState i { state with LineWidth := toFloat P (op.Operands.getD 0 .null) }, [])
    else (i, [])
  | "J" =>
    if op.Operands.length ≥ 1 then
      (updState i { state with LineCap := toInt P (op.Operands.getD 0 .null) }, [])
    else (i, [])
  | "j" =>
    if op.Operands.length ≥ 1 then
      (updState i { state with LineJoin := toInt P (op.Operands.getD 0 .null) }, [])
    else (i, [])
  | "M" =>
    if op.Operands.length ≥ 1 then
      (updState i { state with MiterLimit := toFloat P (op.Operands.getD 0 .null) }, [])
    else (i, [])
  | "d" =>
    if op.Operands.length ≥ 2 then
      let st1 :=
        match op.Operands.getD 0 .null with
        | .arr l => { state with DashPattern := l.map (toFloat P) }
        | _ => state
      (updState i { st1 with DashPhase := toFloat P (op.Operands.getD 1 .null) }, [])
    else (i, [])
  | "ri" =>
    if op.Operands.length ≥ 1 then
      (updState i { state with RenderingIntent := toString P (op.Operands.getD 0 .null) }, [])
    else (i, [])
  | "i" =>
    if op.Operands.length ≥ 1 then
      (updState i { state with Flatness := toFloat P (op.Operands.getD 0 .null) }, [])
    else (i, [])
  | "gs" => (i, [])
  | "m" =>
    if op.Operands.length ≥ 2 then
      let x := toFloat P (op.Operands.getD 0 .null)
      let y := toFloat P (op.Operands.getD 1 .null)
      ({ i with path := i.path.MoveTo x y }, [])
    else (i, [])
  | "l" =>
    if op.Operands.length ≥ 2 then
      let x := toFloat P (op.Operands.getD 0 .null)
      let y := toFloat P (op.Operands.getD 1 .null)
      ({ i with path := i.path.LineTo x y }, [])
    else (i, [])
  | "c" =>
    if op.Operands.length ≥ 6 then
      let p := i.path.CurveTo
        (toFloat P (op.Operands.getD 0 .null)) (toFloat P (op.Operands.getD 1 .null))
        (toFloat P (op.Operands.getD 2 .null)) (toFloat P (op.Operands.getD 3 .null))
        (toFloat P (op.Operands.getD 4 .null)) (toFloat P (op.Operands.getD 5 .null))
      ({ i with path := p }, [])
    else (i, [])
  | "v" =>
    if op.Operands.length ≥ 4 then
      let p := i.path.CurveToV
        (toFloat P (op.Operands.getD 0 .null)) (toFloat P (op.Operands.getD 1 .null))
        (toFloat P (op.Operands.getD 2 .null)) (toFloat P (op.Operands.getD 3 .null))
      ({ i with path := p }, [])
    else (i, [])
  | "y" =>
    if op.Operands.length ≥ 4 then
      let p := i.path.CurveToY
        (toFloat P (op.Operands.getD 0 .null)) (toFloat P (op.Operands.getD 1 .null))
        (toFloat P (op.Operands.getD 2 .null)) (toFloat P (op.Operands.getD 3 .null))
      ({ i with path := p }, [])
    else (i, [])
  | "h" => ({ i with path := i.path.Close }, [])
  | "re" =>
    if op.Operands.length ≥ 4 then
      let p := i.path.Rect
        (toFloat P (op.Operands.getD 0 .null)) (toFloat P (op.Operands.getD 1 .null))
        (toFloat P (op.Operands.getD 2 .null)) (toFloat P (op.Operands.getD 3 .null))
      ({ i with path := p }, [])
    else (i, [])
  | "S" =>
    ({ i with path := i.path.Clear }, [.Stroke (i.path.Transform state.CTM) state])
  | "s" =>
    let p := i.path.Close
    ({ i with path := p.Clear }, [.Stroke (p.Transform state.CTM) state])
  | "f" | "F" =>
    ({ i with path := i.path.Clear },
     [.Fill (i.path.Transform state.CTM) state .NonZero])
  | "f*" =>
    ({ i with path := i.path.Clear },
     [.Fill (i.path.Transform state.CTM) state .EvenOdd])
  | "B" =>
    ({ i with path := i.path.Clear },
     [.Fill (i.path.Transform state.CTM) state .NonZero,
      .Stroke (i.path.Transform state.CTM) state])
  | "B*" =>
    ({ i with path := i.path.Clear },
     [.Fill (i.path.Transform state.CTM) state .EvenOdd,
      .Stroke (i.path.Transform state.CTM) state])
  | "b" =>
    let p := i.path.Close
    ({ i with path := p.Clear },
     [.Fill (p.Transform state.CTM) state .NonZero, .Stroke (p.Transform state.CTM) state])
  | "b*" =>
    let p := i.path.Close
    ({ i with path := p.Clear },
     [.Fill (p.Transform state.CTM) state .EvenOdd, .Stroke (p.Transform state.CTM) state])
  | "n" => ({ i with path := i.path.Clear }, [])
  | "W" =>
    (updState i { state with ClipPath := some i.path.Clone }, [.Clip i.path .NonZero])
  | "W*" =>
    (updState i { state with ClipPath := some i.path.Clone }, [.Clip i.path .EvenOdd])
  | "CS" =>
    if op.Operands.length ≥ 1 then
      (updState i { state with StrokeColorSpace := toString P (op.Operands.getD 0 .null) }, [])
    else (i, [])
  | "cs" =>
    if op.Operands.length ≥ 1 then
      (updState i { state with FillColorSpace := toString P (op.Operands.getD 0 .null) }, [])
    else (i, [])
  | "SC" | "SCN" =>
    (updState i { state with StrokeColor := parseColor P state.StrokeColorSpace op.Operands }, [])
  | "sc" | "scn" =>
    (updState i { state with FillColor := parseColor P state.FillColorSpace op.Operands }, [])
  | "G" =>
    if op.Operands.length ≥ 1 then
      let col := NewGray (toFloat P (op.Operands.getD 0 .null))
      (updState i { state with StrokeColorSpace := "DeviceGray", StrokeColor := col }, [])
    else (i, [])
  | "g" =>
    if op.Operands.length ≥ 1 then
      let col := NewGray (toFloat P (op.Operands.getD 0 .null))
      (updState i { state with FillColorSpace := "DeviceGray", FillColor := col }, [])
    else (i, [])
  | "RG" =>
    if op.Operands.length ≥ 3 then
      let col := NewRGB (toFloat P (op.Operands.getD 0 .null))
        (toFloat P (op.Operands.getD 1 .null)) (toFloat P (op.Operands.getD 2 .null))
      (updState i { state with StrokeColorSpace := "DeviceRGB", StrokeColor := col }, [])
    else (i, [])
  | "rg" =>
    if op.Operands.length ≥ 3 then
      let col := NewRGB (toFloat P (op.Operands.getD 0 .null))
        (toFloat P (op.Operands.getD 1 .null)) (toFloat P (op.Operands.getD 2 .null))
      (updState i { state with FillColorSpace := "DeviceRGB", FillColor := col }, [])
    else (i, [])
  | "K" =>
    if op.Operands.length ≥ 4 then
      let col := NewCMYK (toFloat P (op.Operands.getD 0 .null))
        (toFloat P (op.Operands.getD 1 .null)) (toFloat P (op.Operands.getD 2 .null))
        (toFloat P (op.Operands.getD 3 .null))
      (updState i { state with StrokeColorSpace := "DeviceCMYK", StrokeColor := col }, [])
    else (i, [])
  | "k" =>
    if op.Operands.length ≥ 4 then
      let col := NewCMYK (toFloat P (op.Operands.getD 0 .null))
        (toFloat P (op.Operands.getD 1 .null)) (toFloat P (op.Operands.getD 2 .null))
        (toFloat P (op.Operands.getD 3 .null))
      (updState i { state with FillColorSpace := "DeviceCMYK", FillColor := col }, [])
    else (i, [])
  | "BT" =>
    let ts := { state.TState with TextMatrix := Identity, LineMatrix := Identity }
    (updState i { state with TState := ts }, [])
  | "ET" => (i, [])
  | "Tc" =>
    if op.Operands.length ≥ 1 then
      let ts := { state.TState with CharSpace := toFloat P (op.Operands.getD 0 .null) }
      (updState i { state with TState := ts }, [])
    else (i, [])
  | "Tw" =>
    if op.Operands.length ≥ 1 then
      let ts := { state.TState with WordSpace := toFloat P (op.Operands.getD 0 .null) }
      (updState i { state with TState := ts }, [])
    else (i, [])
  | "Tz" =>
    if op.Operands.length ≥ 1 then
      let ts := { state.TState with HScale := toFloat P (op.Operands.getD 0 .null) }
      (updState i { state with TState := ts }, [])
    else (i, [])
  | "TL" =>
    if op.Operands.length ≥ 1 then
      let ts := { state.TState with Leading := toFloat P (op.Operands.getD 0 .null) }
      (updState i { state with TState := ts }, [])
    else (i, [])
  | "Tf" =>
    if op.Operands.length ≥ 2 then
      let ts := { state.TState with FontName := toString P (op.Operands.getD 0 .null),
                                    FontSize := toFloat P (op.Operands.getD 1 .null) }
      (updState i { state with TState := ts }, [])
    else (i, [])
  | "Tr" =>
    if op.Operands.length ≥ 1 then
      let ts := { state.TState with RenderMode := toInt P (op.Operands.getD 0 .null) }
      (updState i { state with TState := ts }, [])
    else (i, [])
  | "Ts" =>
    if op.Operands.length ≥ 1 then
      let ts := { state.TState with Rise := toFloat P (op.Operands.getD 0 .null) }
      (updState i { state with TState := ts }, [])
    else (i, [])
  | "Td" =>
    if op.Operands.length ≥ 2 then
      let tx := toFloat P (op.Operands.getD 0 .null)
      let ty := toFloat P (op.Operands.getD 1 .null)
      let lm := (Translate tx ty).Multiply state.TState.LineMatrix
      let ts := { state.TState with LineMatrix := lm, TextMatrix := lm }
      (updState i { state with TState := ts }, [])
    else (i, [])
  | "TD" =>
    if op.Operands.length ≥ 2 then
      let tx := toFloat P (op.Operands.getD 0 .null)
      let ty := toFloat P (op.Operands.getD 1 .null)
      let lm := (Translate tx ty).Multiply state.TState.LineMatrix
      let ts := { state.TState with Leading := -ty, LineMatrix := lm, TextMatrix := lm }
      (updState i { state with TState := ts }, [])
    else (i, [])
  | "Tm" =>
    if op.Operands.length ≥ 6 then
      let m : Matrix :=
        ⟨toFloat P (op.Operands.getD 0 .null), toFloat P (op.Operands.getD 1 .null),
         toFloat P (op.Operands.getD 2 .null), toFloat P (op.Operands.getD 3 .null),
         toFloat P (op.Operands.getD 4 .null), toFloat P (op.Operands.getD 5 .null)⟩
      let ts := { state.TState with TextMatrix := m, LineMatrix := m }
      (updState i { state with TState := ts }, [])
    else (i, [])
  | "T*" =>
    let lm := (Translate 0 (-state.TState.Leading)).Multiply state.TState.LineMatrix
    let ts := { state.TState with LineMatrix := lm, TextMatrix := lm }
    (updState i { state with TState := ts }, [])
  | "Tj" =>
    if op.Operands.length ≥ 1 then
      (i, [.Text (toString P (op.Operands.getD 0 .null)) state])
    else (i, [])
  | "TJ" =>
    if op.Operands.length ≥ 1 then
      match op.Operands.getD 0 .null with
      | .arr l =>
        let text := l.foldl (fun acc item =>
          match item with
          | .str s => acc ++ s
          | _ => acc) ""
        if text ≠ "" then (i, [.Text text state]) else (i, [])
      | _ => (i, [])
    else (i, [])
  | "\x27" =>
    let lm := (Translate 0 (-state.TState.Leading)).Multiply state.TState.LineMatrix
    let ts := { state.TState with LineMatrix := lm, TextMatrix := lm }
    let st := { state with TState := ts }
    let i2 := updState i st
    if op.Operands.length ≥ 1 then
      (i2, [.Text (toString P (op.Operands.getD 0 .null)) st])
    else (i2, [])
  | "\x22" =>
    if op.Operands.length ≥ 3 then
      let ts1 := { state.TState with WordSpace := toFloat P (op.Operands.getD 0 .null),
                                     CharSpace := toFloat P (op.Operands.getD 1 .null) }
      let lm := (Translate 0 (-ts1.Leading)).Multiply ts1.LineMatrix
      let ts2 := { ts1 with LineMatrix := lm, TextMatrix := lm }
      let st2 := { state with TState := ts2 }
      (updState i st2, [.Text (toString P (op.Operands.getD 2 .null)) st2])
    else (i, [])
  | "Do" =>
    if op.Operands.length ≥ 1 then
      (i, [.Image (toString P (op.Operands.getD 0 .null)) state])
    else (i, [])
  | _ => (i, [])

/-- The operator names `executeOp` has a case for. -/
def knownOp : String → Bool
  | "q" | "Q" | "cm" | "w" | "J" | "j" | "M" | "d" | "ri" | "i" | "gs"
  | "m" | "l" | "c" | "v" | "y" | "h" | "re"
  | "S" | "s" | "f" | "F" | "f*" | "B" | "B*" | "b" | "b*" | "n"
  | "W" | "W*"
  | "CS" | "cs" | "SC" | "SCN" | "sc" | "scn" | "G" | "g" | "RG" | "rg" | "K" | "k"
  | "BT" | "ET" | "Tc" | "Tw" | "Tz" | "TL" | "Tf" | "Tr" | "Ts"
  | "Td" | "TD" | "Tm" | "T*" | "Tj" | "TJ" | "\x27" | "\x22" | "Do" => true
  | _ => false

/-- `func (i *Interpreter) Execute(ops []Operator) error` — runs every
operator; per-operator errors are logged and ignored. -/
def Execute (P : GoPrims) : Interp → List Operator → Interp × List Event
  | i, [] => (i, [])
  | i, op :: rest =>
    let r := executeOp P i op
    let r2 := Execute P r.1 rest
    (r2.1, r.2 ++ r2.2)

/-! ## Content-stream parsing — src/unnamed/part_003 -/

def isOctalDigit (c : Char) : Bool := '0' ≤ c && c ≤ '7'

def octVal (c : Char) : Nat := c.toNat - '0'.toNat

/-- Octal-escape tail of `decodeString`: given the first octal digit and the
following characters, consume up to two further octal digits and return the
emitted bytes (`strconv.ParseUint(oct, 8, 8)` fails, emitting nothing, when
the three-digit value exceeds 255) together with the unconsumed rest. -/
def octTail (e : Char) : List Char → List Char × List Char
  | c2 :: rest2 =>
    if isOctalDigit c2 then
      match rest2 with
      | c3 :: rest3 =>
        if isOctalDigit c3 then
          let v := octVal e * 64 + octVal c2 * 8 + octVal c3
          (if v ≤ 255 then [Char.ofNat v] else [], rest3)
        else ([Char.ofNat (octVal e * 8 + octVal c2)], rest2)
      | [] => ([Char.ofNat (octVal e * 8 + octVal c2)], [])
    else ([Char.ofNat (octVal e)], c2 :: rest2)
  | [] => ([Char.ofNat (octVal e)], [])

theorem octTail_length (e : Char) (l : List Char) : (octTail e l).2.length ≤ l.length := by
  match l with
  | [] => simp [octTail]
  | c2 :: rest2 =>
    simp only [octTail]
    split
    · match rest2 with
      | [] => simp
      | c3 :: rest3 =>
        simp only
        split <;> simp_arith
    · simp

/-- `func decodeString(s string) string` — PDF literal-string escapes. -/
def decodeStringAux : List Char → List Char
  | [] => []
  | '\\' :: [] => ['\\']
  | '\\' :: e :: rest =>
    match e with
    | 'n' => '\n' :: decodeStringAux rest
    | 'r' => '\r' :: decodeStringAux rest
    | 't' => '\t' :: decodeStringAux rest
    | 'b' => '\x08' :: decodeStringAux rest
    | 'f' => '\x0C' :: decodeStringAux rest
    | '(' => '(' :: decodeStringAux rest
    | ')' => ')' :: decodeStringAux rest
    | '\\' => '\\' :: decodeStringAux rest
    | _ =>
      if isOctalDigit e then
        let r := octTail e rest
        r.1 ++ decodeStringAux r.2
      else e :: decodeStringAux rest
  | ch :: rest => ch :: decodeStringAux rest
termination_by l => l.length
decreasing_by
  all_goals simp_wf
  all_goals try omega
  have := octTail_length e rest
  omega

def decodeString (s : String) : String := ⟨decodeStringAux s.toList⟩

def hexNibble (c : Char) : Option Nat :=
  if '0' ≤ c && c ≤ '9' then some (c.toNat - '0'.toNat)
  else if 'A' ≤ c && c ≤ 'F' then some (c.toNat - 'A'.toNat + 10)
  else if 'a' ≤ c && c ≤ 'f' then some (c.toNat - 'a'.toNat + 10)
  else none

/-- `func decodeHexString(s string) string` — the `Option` argument is the
pending high nibble. -/
def decodeHexAux : Option Nat → List Char → List Char
  | some h, [] => [Char.ofNat (h * 16)]
  | none, [] => []
  | pending, ch :: rest =>
    if ch == ' ' || ch == '\t' || ch == '\r' || ch == '\n' then decodeHexAux pending rest
    else
      match hexNibble ch with
      | none => decodeHexAux pending rest
      | some n =>
        match pending with
        | some h => Char.ofNat (h * 16 + n) :: decodeHexAux none rest
        | none => decodeHexAux (some n) rest

def decodeHexString (s : String) : String := ⟨decodeHexAux none s.toList⟩

/-- `func isOperator(tok string) bool` -/
def isOperator (tok : String) : Bool :=
  if tok.length == 0 then false
  else
    let c := tok.front
    if c == '/' || c == '(' || c == '<' || c == '[' || c == ']' then false
    else if ('0' ≤ c && c ≤ '9') || c == '-' || c == '+' || c == '.' then false
    else if tok == "true" || tok == "false" || tok == "null" then false
    else true

/-- `func parseOperand(tok string) interface{}` -/
def parseOperand (P : GoPrims) (tok : String) : Operand :=
  if tok.length == 0 then .null
  else if tok.front == '(' && tok.back == ')' then
    .str (decodeString ((tok.drop 1).dropRight 1))
  else if tok.front == '<' && tok.back == '>' then
    .str (decodeHexString ((tok.drop 1).dropRight 1))
  else if tok.front == '/' then .str (tok.drop 1)
  else if tok == "true" then .boolean true
  else if tok == "false" then .boolean false
  else if tok == "null" then .null
  else
    match P.parseFloat tok with
    | some f => .num f
    | none => .str tok

/-- The accumulation loop of `func ParseContentStream(data []byte)`: operands
collect until an operator token is seen, which emits `Operator{name, operands}`
and resets the operand list. -/
def ParseLoop (P : GoPrims) : List String → List Operator → List Operand → List Operator
  | [], ops, _ => ops
  | tok :: rest, ops, operands =>
    if isOperator tok then ParseLoop P rest (ops ++ [⟨tok, operands⟩]) []
    else ParseLoop P rest ops (operands ++ [parseOperand P tok])

/-- `func ParseContentStream(data []byte) ([]Operator, error)` — the source
first splits the raw bytes with `tokenize`; the model takes that token list
as input and performs the operand-accumulation loop. -/
def ParseContentStream (P : GoPrims) (tokens : List String) : List Operator :=
  ParseLoop P tokens [] []

/-! ## Abstract q/Q sequences over the state stack

For the stack-balance claims, a content-stream step either pushes (`q`),
pops (`Q`), or mutates the current state in place (any other state
operator, acting through the `stack.Current()` pointer).
-/

inductive StackOp where
  | push
  | pop
  | modify (f : State → State)

/-- Run a sequence of stack operations with the source `Push`/`Pop`. -/
def execStack : List StackOp → List State → List State
  | [], s => s
  | .push :: rest, s => execStack rest (StackPush s)
  | .pop :: rest, s => execStack rest (StackPop s)
  | .modify f :: rest, s =>
    execStack rest (match s with | [] => [] | x :: xs => f x :: xs)

/-- `balOk d ops`: starting `d` levels deep inside unmatched pushes, the
sequence never pops past its starting level, mutates only while at least one
unmatched push protects the state below, and ends back at the starting
level. `balOk 0 ops` is the balanced-q…Q condition. -/
def balOk : Nat → List StackOp → Bool
  | d, [] => d == 0
  | d, .push :: l => balOk (d + 1) l
  | d, .pop :: l => decide (d > 0) && balOk (d - 1) l
  | d, .modify _ :: l => decide (d > 0) && balOk d l

/-! ## COS objects and the xref reader — pkg/cos/xref.go

`cos.Object` is an interface; the dynamic kinds appearing in the package
become the constructors below. Dictionaries are association lists; stream
payloads are byte lists.
-/

inductive PdfObj where
  | null
  | boolean (b : Bool)
  | integer (n : Int)
  | real (x : ℚ)
  | name (s : String)
  | strval (s : String)
  | array (elems : List PdfObj)
  | dict (entries : List (String × PdfObj))
  | stream (sdict : List (String × PdfObj)) (payload : List Nat)
  | reference (objectNumber : Int) (generation : Int)

/-- `type XrefEntry struct` -/
structure XrefEntry where
  Offset : Int
  Generation : Int
  InUse : Bool
  ObjectStreamNum : Int
  IndexInStream : Int

/-- The mutable parts of `cos.Reader` that `GetObject`/`Resolve` read and
write: the xref entry map and the object cache. -/
structure Reader where
  xrefEntries : Int → Option XrefEntry
  cache : Int → Option PdfObj

/-- The two fetch paths of `GetObject` — `getObjectAtOffset(offset, objNum)`
and `getObjectFromStream(streamObjNum, index, objNum)` — involve the
lexer/parser and stream decoding; they are abstracted as oracles that may
also update the reader (they recursively use the cache). Every theorem
below holds for an arbitrary oracle. -/
structure FetchOracle where
  atOffset : Reader → Int → Int → (Except String PdfObj) × Reader
  fromStream : Reader → Int → Int → Int → (Except String PdfObj) × Reader

/-- `func (r *Reader) GetObject(objNum int) (Object, error)` -/
def GetObject (F : FetchOracle) (r : Reader) (objNum : Int) :
    (Except String PdfObj) × Reader :=
  match r.cache objNum with
  | some obj => (.ok obj, r)
  | none =>
    match r.xrefEntries objNum with
    | none => (.error "object not found in xref", r)
    | some entry =>
      if !entry.InUse then (.ok .null, r)
      else
        let res :=
          if entry.ObjectStreamNum > 0 then
            F.fromStream r entry.ObjectStreamNum entry.IndexInStream objNum
          else
            F.atOffset r entry.Offset objNum
        match res.1 with
        | .error e => (.error e, res.2)
        | .ok obj =>
          (.ok obj,
           { res.2 with cache := fun k => if k = objNum then some obj else res.2.cache k })

/-- `func (r *Reader) Resolve(obj Object) (Object, error)` -/
def Resolve (F : FetchOracle) (r : Reader) (obj : PdfObj) :
    (Except String PdfObj) × Reader :=
  match obj with
  | .reference n _ => GetObject F r n
  | o => (.ok o, r)

/-! ## Depth-unbounded recursions — pkg/cos/xref.go and pkg/font/renderer.go

The three recursive traversals below carry no depth parameter in the
source. Their Lean renderings take a fuel argument solely to be total;
`none` marks fuel exhaustion, so `∀ fuel, f fuel x = none` says the source
recursion on input `x` never bottoms out at any depth.
-/

/-- `func (r *Reader) loadPrevXref(offset int64) error` — `ParseXref` is
abstracted as an oracle from offsets to (entry map, trailer `Prev`). The
merge keeps existing entries and adds previously unseen object numbers. -/
def loadPrevXref (parse : Int → Except String ((Int → Option XrefEntry) × Option Int)) :
    Nat → (Int → Option XrefEntry) → Int → Option (Except String (Int → Option XrefEntry))
  | 0, _, _ => none
  | fuel + 1, entries, offset =>
    match parse offset with
    | .error e => some (.error e)
    | .ok pr =>
      let merged : Int → Option XrefEntry := fun n =>
        match entries n with
        | some e => some e
        | none => pr.1 n
      match pr.2 with
      | some p => loadPrevXref parse fuel merged p
      | none => some (.ok merged)

/-- A page-tree node as `findPage` consumes it: `Type` name, resolved
`Kids` object numbers (`none` when the key is missing), and `Count`. -/
structure PageNode where
  type : String
  kids : Option (List Int)
  count : Int

mutual

/-- `func (r *Reader) findPage(node Dict, targetPage, currentPage int)` —
dictionary resolution through the reader is abstracted as `store`. -/
def findPage (store : Int → Option PageNode) :
    Nat → PageNode → Int → Int → Option (Except String PageNode)
  | 0, _, _, _ => none
  | fuel + 1, node, target, current =>
    if node.type == "Page" then
      (if current == target then some (.ok node) else some (.error "page not found"))
    else
      match node.kids with
      | none => some (.error "Pages node without Kids")
      | some kids => findPageKids store fuel kids target current
termination_by fuel _ _ _ => (fuel, 0)

/-- The `for _, kid := range kidsArray` loop of `findPage`; a kid whose
dictionary fails to resolve is skipped (`continue`). -/
def findPageKids (store : Int → Option PageNode) :
    Nat → List Int → Int → Int → Option (Except String PageNode)
  | _, [], _, _ => some (.error "page not found")
  | fuel, kid :: rest, target, pageIndex =>
    match store kid with
    | none => findPageKids store fuel rest target pageIndex
    | some kd =>
      if kd.type == "Page" then
        (if pageIndex == target then some (.ok kd)
         else findPageKids store fuel rest target (pageIndex + 1))
      else
        if pageIndex + kd.count > target then findPage store fuel kd target pageIndex
        else findPageKids store fuel rest target (pageIndex + kd.count)
termination_by fuel kids _ _ => (fuel, kids.length + 1)

end

/-- `type GlyphComponent` fields used by `compoundGlyphToPath`; the 2.14
fixed-point transform values are exact rationals. -/
structure GlyphComponent where
  GlyphIndex : Nat
  Arg1 : Int
  Arg2 : Int
  Scale : ℚ
  ScaleX : ℚ
  ScaleY : ℚ
  Scale01 : ℚ
  Scale10 : ℚ

/-- A glyph as the renderer consumes it: contour count (negative means
compound) and component list. -/
structure GlyphModel where
  NumContours : Int
  Components : List GlyphComponent

/-- The per-segment re-append loop shared by `compoundGlyphToPath` (and
`RenderString`): replay transformed segments into the accumulator path. -/
def appendSegments (acc : Path) (segs : List PathSegment) : Path :=
  segs.foldl (fun a seg =>
    match seg.Op with
    | .MoveTo => match seg.Points with | p :: _ => a.MoveTo p.x p.y | [] => a
    | .LineTo => match seg.Points with | p :: _ => a.LineTo p.x p.y | [] => a
    | .CurveTo =>
      match seg.Points with
      | p1 :: p2 :: p3 :: _ => a.CurveTo p1.x p1.y p2.x p2.y p3.x p3.y
      | _ => a
    | .Close => a.Close) acc

mutual

/-- `func (r *Renderer) GlyphToPath(glyphID uint16) (*graphics.Path, error)`
— `font.GetGlyph` is the `font` oracle and the non-recursive
`simpleGlyphToPath` is the `simple` parameter. -/
def GlyphToPath (font : Nat → Except String GlyphModel) (simple : GlyphModel → Path)
    (scale hScale : ℚ) : Nat → Nat → Option (Except String Path)
  | 0, _ => none
  | fuel + 1, glyphID =>
    match font glyphID with
    | .error e => some (.error e)
    | .ok glyph =>
      if glyph.NumContours < 0 then
        compoundGlyphToPath font simple scale hScale fuel glyph
      else some (.ok (simple glyph))
termination_by fuel _ => (fuel, 0)

/-- `func (r *Renderer) compoundGlyphToPath(glyph *ttf.Glyph)` -/
def compoundGlyphToPath (font : Nat → Except String GlyphModel) (simple : GlyphModel → Path)
    (scale hScale : ℚ) : Nat → GlyphModel → Option (Except String Path)
  | fuel, glyph => compoundLoop font simple scale hScale fuel glyph.Components NewPath
termination_by fuel glyph => (fuel, glyph.Components.length + 2)

/-- The `for _, comp := range glyph.Components` loop: a component whose
conversion errors is skipped; otherwise its path is transformed by the
component matrix and translation and replayed into the result. -/
def compoundLoop (font : Nat → Except String GlyphModel) (simple : GlyphModel → Path)
    (scale hScale : ℚ) : Nat → List GlyphComponent → Path → Option (Except String Path)
  | _, [], acc => some (.ok acc)
  | fuel, comp :: rest, acc =>
    match GlyphToPath font simple scale hScale fuel comp.GlyphIndex with
    | none => none
    | some (.error _) => compoundLoop font simple scale hScale fuel rest acc
    | some (.ok compPath) =>
      let dx := (comp.Arg1 : ℚ) * scale * hScale
      let dy := (comp.Arg2 : ℚ) * scale
      let m0 := Identity
      let m1 :=
        if comp.Scale ≠ 1 ∨ comp.ScaleX ≠ 1 ∨ comp.ScaleY ≠ 1 ∨
            comp.Scale01 ≠ 0 ∨ comp.Scale10 ≠ 0 then
          m0.Multiply ⟨comp.ScaleX, comp.Scale01, comp.Scale10, comp.ScaleY, 0, 0⟩
        else m0
      let m2 := m1.Multiply (Translate dx dy)
      let transformed := compPath.Transform m2
      compoundLoop font simple scale hScale fuel rest (appendSegments acc transformed.Segments)
termination_by fuel l _ => (fuel, l.length + 1)

end

/-- A crafted xref chain whose trailer `Prev` always points back at offset
100: every parse succeeds and requests another hop. -/
def cyclicXrefParse : Int → Except String ((Int → Option XrefEntry) × Option Int) :=
  fun _ => .ok (fun _ => none, some 100)

/-- A crafted page-tree node (object number 1) that lists itself among its
`Kids` with `Count` 1. -/
def cyclicPageNode : PageNode := { type := "Pages", kids := some [1], count := 1 }

def cyclicPageStore : Int → Option PageNode :=
  fun k => if k = 1 then some cyclicPageNode else none

/-- A crafted compound glyph (id 5) whose only component references
glyph 5 itself. -/
def cyclicGlyphFont : Nat → Except String GlyphModel :=
  fun g => if g = 5 then .ok ⟨-1, [⟨5, 0, 0, 1, 1, 1, 0, 0⟩]⟩ else .error "glyph not found"

/-! ## LZW — pkg/stream/filters.go and the stub in pkg/cos/xref.go -/

/-- `func decodeLZW(data []byte, dict Dict) ([]byte, error)` in
pkg/cos/xref.go — the decoder `Reader.DecodeStream` dispatches `LZWDecode`
to. It unconditionally fails. -/
def cosDecodeLZW (_data : List Nat) : Except String (List Nat) :=
  .error "LZW decoding not fully implemented"

/-- `type lzwDecoder struct` from pkg/stream/filters.go; the 4096-slot
table is a total map (unassigned slots are nil slices, i.e. `[]`). -/
structure LZWState where
  data : List Nat
  pos : Nat
  bitPos : Nat
  earlyChange : Bool
  table : Nat → List Nat
  codeSize : Nat
  nextCode : Nat

/-- `func (d *lzwDecoder) reset()` -/
def lzwReset (d : LZWState) : LZWState :=
  { d with table := fun i => if i < 256 then [i] else [],
           codeSize := 9, nextCode := 258 }

/-- `func newLZWDecoder(data []byte, earlyChange bool) *lzwDecoder` -/
def newLZWDecoder (data : List Nat) (earlyChange : Bool) : LZWState :=
  lzwReset
    { data := data, pos := 0, bitPos := 0, earlyChange := earlyChange,
      table := fun _ => [], codeSize := 0, nextCode := 0 }

/-- The bit-gathering loop of `func (d *lzwDecoder) readCode() (int, bool)`:
reads `bitsNeeded` bits big-endian across byte boundaries, returning
(code, pos, bitPos). Each pass reads at least one bit, so `bitsNeeded`
passes of fuel always suffice. -/
def readCodeAux (data : List Nat) : Nat → Nat → Nat → Nat → Nat → Option (Nat × Nat × Nat)
  | 0, bitsNeeded, code, pos, bitPos =>
    if bitsNeeded == 0 then some (code, pos, bitPos) else none
  | fuel + 1, bitsNeeded, code, pos, bitPos =>
    if bitsNeeded == 0 then some (code, pos, bitPos)
    else if pos ≥ data.length then none
    else
      let bitsAvail := 8 - bitPos
      let bitsToRead := min bitsNeeded bitsAvail
      let mask := (1 <<< bitsToRead) - 1
      let shift := bitsAvail - bitsToRead
      let bits := (data.getD pos 0 >>> shift) &&& mask
      let code2 := (code <<< bitsToRead) ||| bits
      let bitPosN := bitPos + bitsToRead
      if bitPosN ≥ 8 then readCodeAux data fuel (bitsNeeded - bitsToRead) code2 (pos + 1) 0
      else readCodeAux data fuel (bitsNeeded - bitsToRead) code2 pos bitPosN

/-- `func (d *lzwDecoder) readCode() (int, bool)` -/
def readCode (d : LZWState) : Option (Nat × LZWState) :=
  if d.pos ≥ d.data.length then none
  else
    match readCodeAux d.data d.codeSize d.codeSize 0 d.pos d.bitPos with
    | none => none
    | some r => some (r.1, { d with pos := r.2.1, bitPos := r.2.2 })

/-- The main loop of `func (d *lzwDecoder) decode() ([]byte, error)`.
`prevSeq = none` models the nil slice. Every successful `readCode` consumes
at least nine bits, so the byte position strictly advances and
`data.length + 1` rounds of fuel always suffice; fuel exhaustion returns
the bytes decoded so far, which is unreachable with that fuel. -/
def lzwDecodeLoop : Nat → LZWState → Option (List Nat) → List Nat → Except String (List Nat)
  | 0, _, _, result => .ok result
  | fuel + 1, d, prevSeq, result =>
    match readCode d with
    | none => .ok result
    | some (code, d2) =>
      if code == 257 then .ok result
      else if code == 256 then lzwDecodeLoop fuel (lzwReset d2) none result
      else
        let seqRes : Except String (List Nat) :=
          if code < d2.nextCode then .ok (d2.table code)
          else if code == d2.nextCode then
            match prevSeq with
            | some ps => .ok (ps ++ [ps.headD 0])
            | none => .error ("invalid LZW code: " ++ Nat.repr code)
          else .error ("invalid LZW code: " ++ Nat.repr code)
        match seqRes with
        | .error e => .error e
        | .ok seq =>
          let result2 := result ++ seq
          let d3 :=
            match prevSeq with
            | some ps =>
              if d2.nextCode < 4096 then
                let newEntry := ps ++ [seq.headD 0]
                let dA := { d2 with
                  table := fun k => if k = d2.nextCode then newEntry else d2.table k,
                  nextCode := d2.nextCode + 1 }
                let threshold := (1 <<< dA.codeSize) - (if dA.earlyChange then 1 else 0)
                if dA.nextCode ≥ threshold ∧ dA.codeSize < 12 then
                  { dA with codeSize := dA.codeSize + 1 }
                else dA
              else d2
            | none => d2
          lzwDecodeLoop fuel d3 (some seq) result2

/-- `func DecodeLZW(data []byte, earlyChange int) ([]byte, error)` from
pkg/stream/filters.go — the complete decoder. -/
def DecodeLZW (data : List Nat) (earlyChange : Int) : Except String (List Nat) :=
  if data.length == 0 then .ok []
  else lzwDecodeLoop (data.length + 1) (newLZWDecoder data (earlyChange == 1)) none []

/-! ## RunLengthDecode — pkg/stream/filters.go -/

/-- The index loop of `func DecodeRunLength(data []byte) ([]byte, error)`;
the source never returns a non-nil error. -/
def runLengthLoop (data : List Nat) (i : Nat) (result : List Nat) : List Nat :=
  if _h : i < data.length then
    let len := data.getD i 0
    if len == 128 then result
    else if len < 128 then
      let count0 := len + 1
      let count := if i + 1 + count0 > data.length then data.length - (i + 1) else count0
      runLengthLoop data (i + 1 + count) (result ++ (data.drop (i + 1)).take count)
    else
      if i + 1 ≥ data.length then result
      else runLengthLoop data (i + 2) (result ++ List.replicate (257 - len) (data.getD (i + 1) 0))
  else result
termination_by data.length - i
decreasing_by all_goals omega

/-- `func DecodeRunLength(data []byte) ([]byte, error)` -/
def DecodeRunLength (data : List Nat) : List Nat := runLengthLoop data 0 []

/-! ## PNG predictors — pkg/stream/predictor.go

Bytes are naturals; Go's wrapping byte arithmetic becomes mod-256.
-/

def byteAdd (a b : Nat) : Nat := (a + b) % 256

def byteSub (a b : Nat) : Nat := (((a : Int) - b) % 256).toNat

/-- `func paeth(a, b, c byte) byte` -/
def paeth (a b c : Nat) : Nat :=
  let p : Int := (a : Int) + b - c
  let pa := (p - a).natAbs
  let pb := (p - b).natAbs
  let pc := (p - c).natAbs
  if pa ≤ pb ∧ pa ≤ pc then a else if pb ≤ pc then b else c

/-- One cell of `func applyPNGFilter(row, prevRow []byte, filterType byte,
bytesPerPixel int) []byte`: the new value at index `i` given the already
decoded prefix. Filter types 0 and unknown leave the byte unchanged. -/
def applyPNGFilterStep (filterType bpp : Nat) (prevRow decoded : List Nat) (i v : Nat) : Nat :=
  if filterType == 1 then
    if i ≥ bpp then byteAdd v (decoded.getD (i - bpp) 0) else v
  else if filterType == 2 then
    if i < prevRow.length then byteAdd v (prevRow.getD i 0) else v
  else if filterType == 3 then
    let left := if i ≥ bpp then decoded.getD (i - bpp) 0 else 0
    let up := if i < prevRow.length then prevRow.getD i 0 else 0
    byteAdd v ((left + up) / 2)
  else if filterType == 4 then
    let a := if i ≥ bpp then decoded.getD (i - bpp) 0 else 0
    let b := if i < prevRow.length then prevRow.getD i 0 else 0
    let c := if i ≥ bpp ∧ i - bpp < prevRow.length then prevRow.getD (i - bpp) 0 else 0
    byteAdd v (paeth a b c)
  else v

/-- The in-place filter loop: positions are decoded left to right; at
position `i` the buffer holds the already-final bytes below `i` and the
still-raw byte `v` at `i` (so an `i - bpp` read with `bpp = 0` sees `v`,
exactly as the in-place Go loop does). -/
def pngFilterGo (filterType bpp : Nat) (prevRow : List Nat) :
    List Nat → Nat → List Nat → List Nat
  | [], _, acc => acc
  | v :: rest, i, acc =>
    pngFilterGo filterType bpp prevRow rest (i + 1)
      (acc ++ [applyPNGFilterStep filterType bpp prevRow (acc ++ [v]) i v])

/-- `func applyPNGFilter(row, prevRow []byte, filterType byte, bytesPerPixel int) []byte` -/
def applyPNGFilter (row prevRow : List Nat) (filterType bpp : Nat) : List Nat :=
  pngFilterGo filterType bpp prevRow row 0 []

/-- `type DecodeParams struct` (pkg/stream/filters.go). -/
structure DecodeParams where
  Predictor : Nat
  Colors : Nat
  BitsPerComponent : Nat
  Columns : Nat
  EarlyChange : Nat

/-- The zero-value defaulting shared by the predictor functions:
`if columns == 0 { columns = 1 }` etc. -/
def pngColumns (p : DecodeParams) : Nat := if p.Columns == 0 then 1 else p.Columns

def pngColors (p : DecodeParams) : Nat := if p.Colors == 0 then 1 else p.Colors

def pngBpc (p : DecodeParams) : Nat :=
  if p.BitsPerComponent == 0 then 8 else p.BitsPerComponent

/-- `bytesPerPixel := (colors*bpc + 7) / 8` -/
def pngBytesPerPixel (p : DecodeParams) : Nat := (pngColors p * pngBpc p + 7) / 8

/-- `rowSize := (columns*colors*bpc + 7) / 8` -/
def pngRowSize (p : DecodeParams) : Nat :=
  (pngColumns p * pngColors p * pngBpc p + 7) / 8

/-- The Sub-filter row encoding inside `EncodePNGPredictor`:
`encoded[i] = rowData[i] - rowData[i-bpp]` (byte subtraction) past the
first pixel. -/
def subEncodeRow (bpp : Nat) (rowData : List Nat) : List Nat :=
  (List.range rowData.length).map (fun i =>
    if i < bpp then rowData.getD i 0
    else byteSub (rowData.getD i 0) (rowData.getD (i - bpp) 0))

/-- The row loop of `func EncodePNGPredictor` rendered structurally: row
`r` of the source reads `data[r*rowSize : min((r+1)*rowSize, len)]`, which
is `take rowSize` after dropping the earlier rows. Each output row is the
filter byte 1 followed by the Sub-encoded row. -/
def encodePNGRows (rowSize bpp : Nat) : Nat → List Nat → List Nat
  | 0, _ => []
  | n + 1, data =>
    [1] ++ subEncodeRow bpp (data.take rowSize) ++
      encodePNGRows rowSize bpp n (data.drop rowSize)

/-- `func EncodePNGPredictor(data []byte, params DecodeParams) ([]byte, error)`
— always uses the Sub filter; never returns a non-nil error. -/
def EncodePNGPredictor (data : List Nat) (params : DecodeParams) : List Nat :=
  let rowSize := pngRowSize params
  let bpp := pngBytesPerPixel params
  if data.length == 0 || rowSize == 0 then data
  else encodePNGRows rowSize bpp (data.length / rowSize) data

/-- The row loop of `func applyPNGPredictor` rendered structurally: row `r`
starts at `r*(rowSize+1)` in the source, i.e. after dropping the earlier
input rows. For predictors 10..14 a filter byte above 4 is treated as
absent: the fixed filter `predictor - 10` is used and the row data starts
at the filter byte itself. Short final rows are zero-padded to `rowSize`. -/
def decodePNGRows (rowSize bpp predictor : Nat) : Nat → List Nat → List Nat → List Nat
  | 0, _, _ => []
  | n + 1, data, prevRow =>
    if data.length == 0 then []
    else
      let filterType := data.getD 0 0
      let override := 10 ≤ predictor && predictor ≤ 14 && filterType > 4
      let ft := if override then predictor - 10 else filterType
      let rowBytes := if override then data.take rowSize else (data.drop 1).take rowSize
      let rowData := rowBytes ++ List.replicate (rowSize - rowBytes.length) 0
      let decoded := applyPNGFilter rowData prevRow ft bpp
      decoded ++ decodePNGRows rowSize bpp predictor n (data.drop (rowSize + 1)) decoded

/-- `func applyPNGPredictor(data []byte, params DecodeParams, predictor int)
([]byte, error)` — when the data is shorter than one filter-prefixed row,
`applyOptimumPredictor` returns it unchanged. -/
def applyPNGPredictor (data : List Nat) (params : DecodeParams) (predictor : Nat) : List Nat :=
  let bpp := pngBytesPerPixel params
  let rowSize := pngRowSize params
  let inputRowSize := rowSize + 1
  if data.length == 0 || inputRowSize == 0 then data
  else
    let numRows := data.length / inputRowSize
    if numRows == 0 then data
    else decodePNGRows rowSize bpp predictor numRows data (List.replicate rowSize 0)

/-! ## cmap format 4 — pkg/font/ttf/cmap.go -/

/-- `type CmapFormat4 struct` — `IDDelta` entries are int16 values. -/
structure CmapFormat4 where
  SegCount : Nat
  EndCode : List Nat
  StartCode : List Nat
  IDDelta : List Int
  IDRangeOffset : List Nat
  GlyphIDArray : List Nat

/-- The found-segment arm of `func (c *CmapFormat4) GetGlyphID`:
`uint16(int(code) + int(idDelta))` is mod-65536 reduction of the signed
sum; out-of-range `glyphIdArray` indices and a fetched glyph id of 0 both
yield 0. -/
def cmap4SegResult (c : CmapFormat4) (code : Nat) (mid : Nat) : Nat :=
  let delta := c.IDDelta.getD mid 0
  if c.IDRangeOffset.getD mid 0 == 0 then
    (((code : Int) + delta) % 65536).toNat
  else
    let idx : Int := (c.IDRangeOffset.getD mid 0 : Int) / 2 +
      ((code : Int) - (c.StartCode.getD mid 0 : Int)) - ((c.SegCount : Int) - mid)
    if 0 ≤ idx ∧ idx < (c.GlyphIDArray.length : Int) then
      let glyphID := c.GlyphIDArray.getD idx.toNat 0
      if glyphID ≠ 0 then (((glyphID : Int) + delta) % 65536).toNat else 0
    else 0

/-- The binary-search loop of `GetGlyphID`. Go's `(lo + hi) / 2` truncates
toward zero; the loop only ever divides nonnegative sums, where this
agrees with Lean's division. -/
def cmap4Loop (c : CmapFormat4) (code : Nat) (lo hi : Int) : Nat :=
  if _h : lo ≤ hi then
    let mid := (lo + hi) / 2
    if code > c.EndCode.getD mid.toNat 0 then cmap4Loop c code (mid + 1) hi
    else if code < c.StartCode.getD mid.toNat 0 then cmap4Loop c code lo (mid - 1)
    else cmap4SegResult c code mid.toNat
  else 0
termination_by (hi + 1 - lo).toNat
decreasing_by all_goals omega

/-- `func (c *CmapFormat4) GetGlyphID(r rune) uint16` -/
def cmap4GetGlyphID (c : CmapFormat4) (r : Nat) : Nat :=
  if r > 0xFFFF then 0
  else cmap4Loop c r 0 ((c.SegCount : Int) - 1)

/-- The binary-search loop of `GetGlyphID` with the found segment index
returned instead of the glyph computation: used to state which segment the
search lands on. -/
def cmap4FindSegment (c : CmapFormat4) (code : Nat) (lo hi : Int) : Option Nat :=
  if _h : lo ≤ hi then
    let mid := (lo + hi) / 2
    if code > c.EndCode.getD mid.toNat 0 then cmap4FindSegment c code (mid + 1) hi
    else if code < c.StartCode.getD mid.toNat 0 then cmap4FindSegment c code lo (mid - 1)
    else some mid.toNat
  else none
termination_by (hi + 1 - lo).toNat
decreasing_by all_goals omega

/-! ## Shared helpers for the theorems -/

/-- A trivial instantiation of the Go standard-library primitives. -/
def P0 : GoPrims := ⟨fun _ => none, fun _ => none, fun _ => ""⟩

/-- The current graphics state of an interpreter (top of stack). -/
def currentState (i : Interp) : State := (StackCurrent i.stack).1

/-- The `cm` operator carrying the six entries of a matrix. -/
def cmOp (m : Matrix) : Operator :=
  ⟨"cm", [.num m.a, .num m.b, .num m.c, .num m.d, .num m.e, .num m.f]⟩

/-- Modelled from the spec: the stated CTM composition rule
`CTM ← [a b; c d; e f] ∘ CTM` (left-multiply by each new matrix), folded
over a `cm` sequence. -/
def specCmCompose (init : Matrix) (ms : List Matrix) : Matrix :=
  ms.foldl (fun acc m => m.Multiply acc) init

/-! ## Theorems -/

theorem loadPrevXref_cyclic (n : Nat) :
    ∀ entries, loadPrevXref cyclicXrefParse n entries 100 = none := by
  induction n with
  | zero => intro entries; rfl
  | succ k ih =>
    intro entries
    simp only [loadPrevXref, cyclicXrefParse]
    exact ih _

theorem findPage_cyclic (n : Nat) :
    findPage cyclicPageStore n cyclicPageNode 0 0 = none := by
  induction n with
  | zero => rw [findPage]
  | succ k ih =>
    rw [findPage]
    simp only [cyclicPageNode]
    norm_num
    rw [findPageKids]
    simp only [cyclicPageStore, cyclicPageNode]
    norm_num
    exact ih

theorem glyphToPath_cyclic (n : Nat) (simple : GlyphModel → Path) (scale hScale : ℚ) :
    GlyphToPath cyclicGlyphFont simple scale hScale n 5 = none := by
  induction n with
  | zero => rw [GlyphToPath]
  | succ k ih =>
    rw [GlyphToPath]
    simp only [cyclicGlyphFont]
    norm_num
    rw [compoundGlyphToPath]
    simp only
    rw [compoundLoop]
    rw [ih]

/-- C2: the claim says the page-tree walk, the `Prev` xref chain, and
compound-glyph expansion each carry an explicit recursion depth cap. None
of the three source functions has one: on a `Prev` chain whose trailer
points back at its own offset, a page-tree node listed among its own Kids,
and a compound glyph referencing itself, each recursion exceeds every
depth (every amount of fuel is exhausted). -/
theorem loadPrevXref_findPage_glyphToPath_no_depth_cap :
    (∀ n entries, loadPrevXref cyclicXrefParse n entries 100 = none) ∧
    (∀ n, findPage cyclicPageStore n cyclicPageNode 0 0 = none) ∧
    (∀ n (simple : GlyphModel → Path) (scale hScale : ℚ),
      GlyphToPath cyclicGlyphFont simple scale hScale n 5 = none) :=
  ⟨fun n => loadPrevXref_cyclic n,
   fun n => findPage_cyclic n,
   fun n simple scale hScale => glyphToPath_cyclic n simple scale hScale⟩

/-- C5: resolving a reference to object n is exactly `GetObject n` (for
any fetch oracle and reader state), and an xref entry marked free makes
`GetObject` return the null object with no error (the cache never holds
free objects, stated here as a cache-miss hypothesis). -/
theorem resolve_getObject_free_null (F : FetchOracle) (r : Reader) (n g : Int) :
    Resolve F r (.reference n g) = GetObject F r n ∧
    (∀ e, r.xrefEntries n = some e → e.InUse = false → r.cache n = none →
      GetObject F r n = (.ok .null, r)) := by
  constructor
  · rfl
  · intro e hx hfree hc
    unfold GetObject
    rw [hc, hx]
    simp [hfree]

/-- C5 witness: a one-entry reader whose object 5 is free. -/
theorem resolve_getObject_free_null_witness :
    GetObject ⟨fun r _ _ => (.error "", r), fun r _ _ _ => (.error "", r)⟩
      ⟨fun k => if k = 5 then some ⟨0, 0, false, 0, 0⟩ else none, fun _ => none⟩ 5 =
      (.ok .null, ⟨fun k => if k = 5 then some ⟨0, 0, false, 0, 0⟩ else none, fun _ => none⟩) :=
  (resolve_getObject_free_null _ _ 5 0).2 ⟨0, 0, false, 0, 0⟩ (by simp) rfl rfl

/-- C3: PDF stream decoding dispatches LZWDecode to the `decodeLZW` stub
in pkg/cos/xref.go, which always fails, while the complete decoder
`DecodeLZW` in pkg/stream/filters.go decodes the same bytes (the LZW
encoding of "A": 9-bit codes 65 then 257) correctly. -/
theorem lzw_stub_vs_stream_decoder :
    cosDecodeLZW [0x20, 0xC0, 0x40] = .error "LZW decoding not fully implemented" ∧
    DecodeLZW [0x20, 0xC0, 0x40] 1 = .ok [65] :=
  ⟨rfl, rfl⟩

theorem execute_cmList_postmultiply (P : GoPrims) (ms : List Matrix) :
    ∀ (i : Interp), i.stack ≠ [] →
      (currentState (Execute P i (ms.map cmOp)).1).CTM =
        ms.foldl (fun acc m => acc.Multiply m) (currentState i).CTM ∧
      (Execute P i (ms.map cmOp)).1.stack ≠ [] := by
  induction ms with
  | nil => intro i h; exact ⟨rfl, h⟩
  | cons m rest ih =>
    intro i h
    obtain ⟨stk, path⟩ := i
    cases stk with
    | nil => exact absurd rfl h
    | cons x xs =>
      have hstep : executeOp P ⟨x :: xs, path⟩ (cmOp m) =
          (⟨{ x with CTM := x.CTM.Multiply m } :: xs, path⟩, []) := rfl
      simp only [List.map_cons, Execute, hstep]
      exact ih ⟨{ x with CTM := x.CTM.Multiply m } :: xs, path⟩ (by simp)

/-- C1: executing `cm 2 0 0 1 0 0` then `cm 1 0 0 1 5 0` from the default
state leaves CTM = CTM₀ · M₁ · M₂ = [2 0 0 1 5 0] — the interpreter
post-multiplies (`state.CTM.Multiply(m)`), while the spec rule
`CTM ← new ∘ CTM` (left-multiplication, the PDF 1.7 order that
`Matrix.Concat` also documents) yields [2 0 0 1 10 0]. -/
theorem cm_postmultiplies_not_premultiplies :
    (currentState (Execute P0 NewInterpreter
      [cmOp ⟨2, 0, 0, 1, 0, 0⟩, cmOp ⟨1, 0, 0, 1, 5, 0⟩]).1).CTM
      = ⟨2, 0, 0, 1, 5, 0⟩ ∧
    specCmCompose Identity [⟨2, 0, 0, 1, 0, 0⟩, ⟨1, 0, 0, 1, 5, 0⟩] = ⟨2, 0, 0, 1, 10, 0⟩ ∧
    (⟨2, 0, 0, 1, 5, 0⟩ : Matrix) ≠ ⟨2, 0, 0, 1, 10, 0⟩ := by
  refine ⟨?_, ?_, ?_⟩
  · have h := (execute_cmList_postmultiply P0 [⟨2, 0, 0, 1, 0, 0⟩, ⟨1, 0, 0, 1, 5, 0⟩]
      NewInterpreter (by simp [NewInterpreter])).1
    simp only [List.map_cons, List.map_nil] at h
    rw [h]
    simp only [List.foldl, currentState, NewInterpreter, StackCurrent, NewState,
      Matrix.Multiply, Identity]
    norm_num
  · simp only [specCmCompose, List.foldl, Matrix.Multiply, Identity]
    norm_num
  · intro h
    have := congrArg Matrix.e h
    norm_num at this

/-- C8: `Td tx ty` sets LineMatrix to `Translate(tx,ty) × LineMatrix`
(translation pre-multiplied) and copies it into TextMatrix, and `TD`,
`T*`, `'` and `"` pre-multiply their translations the same way. -/
theorem td_premultiplies_translation (P : GoPrims) (ii : Interp) (tx ty : ℚ)
    (a b : ℚ) (s : String) (h : ii.stack ≠ []) :
    (let st := currentState ii
     let r := currentState (executeOp P ii ⟨"Td", [.num tx, .num ty]⟩).1
     r.TState.LineMatrix = (Translate tx ty).Multiply st.TState.LineMatrix ∧
     r.TState.TextMatrix = r.TState.LineMatrix) ∧
    (let st := currentState ii
     let r := currentState (executeOp P ii ⟨"TD", [.num tx, .num ty]⟩).1
     r.TState.LineMatrix = (Translate tx ty).Multiply st.TState.LineMatrix ∧
     r.TState.TextMatrix = r.TState.LineMatrix) ∧
    (let st := currentState ii
     let r := currentState (executeOp P ii ⟨"T*", []⟩).1
     r.TState.LineMatrix =
       (Translate 0 (-st.TState.Leading)).Multiply st.TState.LineMatrix ∧
     r.TState.TextMatrix = r.TState.LineMatrix) ∧
    (let st := currentState ii
     let r := currentState (executeOp P ii ⟨"\x27", [.str s]⟩).1
     r.TState.LineMatrix =
       (Translate 0 (-st.TState.Leading)).Multiply st.TState.LineMatrix ∧
     r.TState.TextMatrix = r.TState.LineMatrix) ∧
    (let st := currentState ii
     let r := currentState (executeOp P ii ⟨"\x22", [.num a, .num b, .str s]⟩).1
     r.TState.LineMatrix =
       (Translate 0 (-st.TState.Leading)).Multiply st.TState.LineMatrix ∧
     r.TState.TextMatrix = r.TState.LineMatrix) := by
  obtain ⟨stk, path⟩ := ii
  cases stk with
  | nil => exact absurd rfl h
  | cons x xs =>
    exact ⟨⟨rfl, rfl⟩, ⟨rfl, rfl⟩, ⟨rfl, rfl⟩, ⟨rfl, rfl⟩, ⟨rfl, rfl⟩⟩

theorem execStack_balanced (ops : List StackOp) :
    ∀ (d : Nat) (front : List State) (b : State) (r : List State),
      balOk d ops = true → front.length = d → execStack ops (front ++ b :: r) = b :: r := by
  induction ops with
  | nil =>
    intro d front b r hb hl
    simp only [balOk, beq_iff_eq] at hb
    subst hb
    rw [List.length_eq_zero] at hl
    subst hl
    rfl
  | cons op l ih =>
    intro d front b r hb hl
    cases op with
    | push =>
      simp only [balOk] at hb
      cases front with
      | nil =>
        simp only [List.length_nil] at hl
        subst hl
        show execStack l (StackPush (b :: r)) = b :: r
        have : StackPush (b :: r) = [b.Clone] ++ b :: r := rfl
        rw [this]
        exact ih 1 [b.Clone] b r hb rfl
      | cons f fs =>
        show execStack l (StackPush ((f :: fs) ++ b :: r)) = b :: r
        have : StackPush ((f :: fs) ++ b :: r) = (f.Clone :: f :: fs) ++ b :: r := rfl
        rw [this]
        exact ih (d + 1) (f.Clone :: f :: fs) b r hb (by simp [← hl])
    | pop =>
      simp only [balOk, Bool.and_eq_true, decide_eq_true_eq] at hb
      obtain ⟨hd, hb⟩ := hb
      cases front with
      | nil => simp at hl; omega
      | cons f fs =>
        show execStack l (StackPop ((f :: fs) ++ b :: r)) = b :: r
        have hlen : ((f :: fs) ++ b :: r).length > 1 := by simp
        have : StackPop ((f :: fs) ++ b :: r) = fs ++ b :: r := by
          simp only [StackPop, if_pos hlen]
          rfl
        rw [this]
        exact ih (d - 1) fs b r hb (by simp at hl; omega)
    | modify g =>
      simp only [balOk, Bool.and_eq_true, decide_eq_true_eq] at hb
      obtain ⟨hd, hb⟩ := hb
      cases front with
      | nil => simp at hl; omega
      | cons f fs =>
        show execStack l (g f :: (fs ++ b :: r)) = b :: r
        exact ih d (g f :: fs) b r hb (by simpa using hl)

theorem execStack_pushpop_only (ops : List StackOp) :
    ∀ (st : List State) (s : State),
      (∀ op ∈ ops, op = .push ∨ op = .pop) → st ≠ [] → (∀ x ∈ st, x = s) →
      execStack ops st ≠ [] ∧ (∀ x ∈ execStack ops st, x = s) := by
  induction ops with
  | nil => intro st s _ h1 h2; exact ⟨h1, h2⟩
  | cons op l ih =>
    intro st s hops h1 h2
    have hop := hops op (List.mem_cons_self op l)
    have hopsl : ∀ o ∈ l, o = .push ∨ o = .pop :=
      fun o ho => hops o (List.mem_cons_of_mem op ho)
    cases st with
    | nil => exact absurd rfl h1
    | cons y ys =>
      have hy : y = s := h2 y (List.mem_cons_self y ys)
      rcases hop with rfl | rfl
      · have hstep : execStack (.push :: l) (y :: ys) = execStack l (y.Clone :: y :: ys) := rfl
        rw [hstep]
        refine ih (y.Clone :: y :: ys) s hopsl (by simp) ?_
        intro x hx
        simp only [List.mem_cons] at hx
        rcases hx with rfl | rfl | hx
        · rw [state_clone_id]; exact hy
        · exact hy
        · exact h2 x (List.mem_cons_of_mem y hx)
      · have hstep : execStack (.pop :: l) (y :: ys) = execStack l (StackPop (y :: ys)) := rfl
        rw [hstep]
        by_cases hlen : (y :: ys).length > 1
        · have hpop : StackPop (y :: ys) = ys := by simp only [StackPop, if_pos hlen]; rfl
          rw [hpop]
          refine ih ys s hopsl ?_ ?_
          · intro hys; subst hys; simp at hlen
          · exact fun x hx => h2 x (List.mem_cons_of_mem y hx)
        · have hpop : StackPop (y :: ys) = y :: ys := by simp only [StackPop, if_neg hlen]
          rw [hpop]
          exact ih (y :: ys) s hopsl h1 h2

/-- C4: for every starting stack, a balanced q…Q sequence (arbitrary
state mutations strictly inside the pushes) leaves the whole stack — in
particular the current state — exactly as it was; and any q/Q-only
sequence from the base stack keeps the stack nonempty with the base state
current, so surplus Q operations clamp at the base state. -/
theorem qQ_balanced_restores_and_extra_Q_clamps :
    (∀ (ops : List StackOp) (s : State) (r : List State),
      balOk 0 ops = true → execStack ops (s :: r) = s :: r) ∧
    (∀ (ops : List StackOp) (s : State),
      (∀ op ∈ ops, op = .push ∨ op = .pop) →
      execStack ops [s] ≠ [] ∧ ∀ x ∈ execStack ops [s], x = s) :=
  ⟨fun ops s r hb => execStack_balanced ops 0 [] s r hb rfl,
   fun ops s hops => execStack_pushpop_only ops [s] s hops (by simp) (by simp)⟩

/-- C4 witness: `q, w 5, Q` restores the default state, and `Q Q q` from
the base stack keeps the base state current. -/
theorem qQ_balanced_restores_and_extra_Q_clamps_witness :
    execStack [.push, .modify (fun st => { st with LineWidth := 5 }), .pop] [NewState]
      = [NewState] ∧
    (execStack [.pop, .pop, .push] [NewState] ≠ [] ∧
      ∀ x ∈ execStack [.pop, .pop, .push] [NewState], x = NewState) :=
  ⟨qQ_balanced_restores_and_extra_Q_clamps.1 _ NewState [] rfl,
   qQ_balanced_restores_and_extra_Q_clamps.2 _ NewState (by
    intro op h
    simp only [List.mem_cons, List.not_mem_nil, or_false] at h
    rcases h with rfl | rfl | rfl
    · exact Or.inr rfl
    · exact Or.inr rfl
    · exact Or.inl rfl)⟩

set_option maxHeartbeats 1000000 in
theorem executeOp_unknown (P : GoPrims) (i : Interp) (op : Operator)
    (hk : knownOp op.Name = false) (h : i.stack ≠ []) : executeOp P i op = (i, []) := by
  obtain ⟨stk, path⟩ := i
  cases stk with
  | nil => exact absurd rfl h
  | cons x xs =>
    unfold executeOp
    simp only [StackCurrent]
    split <;>
      first
      | (rename_i heq; rw [heq] at hk; exact absurd hk (by decide))
      | rfl

theorem ParseLoop_append_ops (P : GoPrims) (toks : List String) :
    ∀ ops operands, ParseLoop P toks ops operands = ops ++ ParseLoop P toks [] operands := by
  induction toks with
  | nil => intro ops operands; simp [ParseLoop]
  | cons t rest ih =>
    intro ops operands
    by_cases ht : isOperator t = true
    · simp only [ParseLoop, if_pos ht, List.nil_append]
      rw [ih (ops ++ [Operator.mk t operands]) [], ih [Operator.mk t operands] []]
      simp
    · simp only [ParseLoop, if_neg ht]
      exact ih ops (operands ++ [parseOperand P t])

theorem ParseLoop_nonops (P : GoPrims) (mid : List String) :
    ∀ rest operands, (∀ t ∈ mid, isOperator t = false) →
      ParseLoop P (mid ++ rest) [] operands =
        ParseLoop P rest [] (operands ++ mid.map (parseOperand P)) := by
  induction mid with
  | nil => intro rest operands _; simp
  | cons t mid' ih =>
    intro rest operands hmid
    have ht : isOperator t = false := hmid t (List.mem_cons_self t mid')
    have hstep : ParseLoop P (t :: (mid' ++ rest)) [] operands =
        ParseLoop P (mid' ++ rest) [] (operands ++ [parseOperand P t]) := by
      simp [ParseLoop, ht]
    rw [List.cons_append, hstep,
      ih rest (operands ++ [parseOperand P t])
        (fun u hu => hmid u (List.mem_cons_of_mem t hu))]
    simp

theorem ParseLoop_prefix (P : GoPrims) (pre : List String) (rest : List String) :
    ∀ ops operands, ∃ ops2 operands2,
      ParseLoop P (pre ++ rest) ops operands = ParseLoop P rest ops2 operands2 := by
  induction pre with
  | nil => intro ops operands; exact ⟨ops, operands, rfl⟩
  | cons t pre' ih =>
    intro ops operands
    by_cases ht : isOperator t = true
    · simpa only [List.cons_append, ParseLoop, if_pos ht] using
        ih (ops ++ [⟨t, operands⟩]) []
    · simpa only [List.cons_append, ParseLoop, if_neg ht] using
        ih ops (operands ++ [parseOperand P t])

/-- C9: an operator name outside the dispatch switch leaves the
interpreter (state stack and current path) unchanged, produces no events
and no error, and execution proceeds with the remaining operators; and the
content-stream parser attaches to each emitted operator exactly the
operand tokens seen since the previous operator — the operand list is
cleared at every operator, recognised or not. -/
theorem unknown_ops_skipped_and_operands_cleared :
    (∀ (P : GoPrims) (i : Interp) (op : Operator) (rest : List Operator),
      knownOp op.Name = false → i.stack ≠ [] →
      executeOp P i op = (i, []) ∧ Execute P i (op :: rest) = Execute P i rest) ∧
    (∀ (P : GoPrims) (pre mid : List String) (o1 o2 : String),
      isOperator o1 = true → isOperator o2 = true →
      (∀ t ∈ mid, isOperator t = false) →
      ∃ pfx, ParseContentStream P (pre ++ o1 :: (mid ++ [o2])) =
        pfx ++ [⟨o2, mid.map (parseOperand P)⟩]) := by
  constructor
  · intro P i op rest hk h
    have h1 := executeOp_unknown P i op hk h
    refine ⟨h1, ?_⟩
    simp only [Execute]
    rw [h1]
    simp
  · intro P pre mid o1 o2 h1 h2 hmid
    obtain ⟨ops2, operands2, hpre⟩ :=
      ParseLoop_prefix P pre (o1 :: (mid ++ [o2])) ([] : List Operator) []
    refine ⟨ops2 ++ [⟨o1, operands2⟩], ?_⟩
    show ParseLoop P (pre ++ o1 :: (mid ++ [o2])) [] [] = _
    rw [hpre]
    simp only [ParseLoop, if_pos h1]
    rw [ParseLoop_append_ops, ParseLoop_nonops P mid [o2] [] hmid]
    simp only [ParseLoop, if_pos h2, List.nil_append, List.append_assoc]

/-- C9 witness: the unrecognised operator "xyz" is skipped from the
default interpreter, and in the token stream `3 q 1.5 /N re` the operands
attached to `re` are exactly those after `q`. -/
theorem unknown_ops_skipped_and_operands_cleared_witness :
    (executeOp P0 NewInterpreter ⟨"xyz", []⟩ = (NewInterpreter, []) ∧
      Execute P0 NewInterpreter [⟨"xyz", []⟩] = Execute P0 NewInterpreter []) ∧
    (∃ pfx, ParseContentStream P0 (["3"] ++ "q" :: (["1.5", "/N"] ++ ["re"])) =
      pfx ++ [⟨"re", ["1.5", "/N"].map (parseOperand P0)⟩]) :=
  ⟨unknown_ops_skipped_and_operands_cleared.1 P0 NewInterpreter ⟨"xyz", []⟩ []
      (by decide) (by simp [NewInterpreter]),
   unknown_ops_skipped_and_operands_cleared.2 P0 ["3"] ["1.5", "/N"] "q" "re"
      (by decide) (by decide) (by
        intro t ht
        simp only [List.mem_cons, List.not_mem_nil, or_false] at ht
        rcases ht with rfl | rfl <;> decide)⟩

theorem runLengthLoop_drop (k : Nat) :
    ∀ (data : List Nat) (i : Nat) (acc : List Nat), data.length - i ≤ k →
      runLengthLoop data i acc = acc ++ runLengthLoop (data.drop i) 0 [] := by
  induction k with
  | zero =>
    intro data i acc hk
    rw [runLengthLoop, dif_neg (by omega)]
    rw [List.drop_eq_nil_of_le (by omega), runLengthLoop]
    simp
  | succ k ih =>
    intro data i acc hk
    by_cases hi : i < data.length
    · have hdrop : data.drop i = data.getD i 0 :: data.drop (i + 1) := by
        rw [List.getD_eq_getElem data 0 hi]
        exact List.drop_eq_getElem_cons hi
      have hlenr : (data.drop (i + 1)).length = data.length - (i + 1) := by
        simp [List.length_drop]
      rw [runLengthLoop, dif_pos hi]
      conv_rhs => rw [hdrop, runLengthLoop]
      rw [dif_pos (by simp)]
      simp only [List.getD_cons_zero, List.drop_succ_cons, List.nil_append]
      by_cases h128 : data.getD i 0 == 128
      · rw [if_pos h128, if_pos h128]
        simp
      · rw [if_neg h128, if_neg h128]
        by_cases hlt : data.getD i 0 < 128
        · rw [if_pos hlt, if_pos hlt]
          have hcnt : (if i + 1 + (data.getD i 0 + 1) > data.length
                then data.length - (i + 1) else data.getD i 0 + 1) =
              (if 0 + 1 + (data.getD i 0 + 1) > (data.getD i 0 :: data.drop (i + 1)).length
                then (data.getD i 0 :: data.drop (i + 1)).length - (0 + 1)
                else data.getD i 0 + 1) := by
            simp only [List.length_cons, hlenr]
            split <;> split <;> omega
          set c := if i + 1 + (data.getD i 0 + 1) > data.length
            then data.length - (i + 1) else data.getD i 0 + 1 with hc
          rw [← hcnt]
          simp only [List.drop_zero]
          rw [ih data (i + 1 + c) (acc ++ (data.drop (i + 1)).take c) (by omega)]
          rw [ih (data.getD i 0 :: data.drop (i + 1)) (0 + 1 + c) ((data.drop (i + 1)).take c)
            (by simp only [List.length_cons, hlenr]; omega)]
          have hd2 : (data.getD i 0 :: data.drop (i + 1)).drop (0 + 1 + c) =
              data.drop (i + 1 + c) := by
            rw [show (0 + 1 + c) = c + 1 by omega, List.drop_succ_cons]
            rw [List.drop_drop]
          rw [hd2]
          simp
        · rw [if_neg hlt, if_neg hlt]
          by_cases hend : i + 1 ≥ data.length
          · rw [if_pos hend, if_pos (by simp only [List.length_cons, hlenr]; omega)]
            simp
          · rw [if_neg hend, if_neg (by simp only [List.length_cons, hlenr]; omega)]
            have hb : (data.getD i 0 :: data.drop (i + 1)).getD (0 + 1) 0 =
                data.getD (i + 1) 0 := by
              simp only [List.getD_cons_succ]
              rw [List.getD_eq_getElem data 0 (by omega),
                List.getD_eq_getElem (data.drop (i+1)) 0 (by simp [List.length_drop]; omega)]
              simp [List.getElem_drop]
            rw [hb]
            rw [ih data (i + 2)
              (acc ++ List.replicate (257 - data.getD i 0) (data.getD (i + 1) 0)) (by omega)]
            rw [ih (data.getD i 0 :: data.drop (i + 1)) (0 + 2)
              (List.replicate (257 - data.getD i 0) (data.getD (i + 1) 0))
              (by simp only [List.length_cons, hlenr]; omega)]
            have hd2 : (data.getD i 0 :: data.drop (i + 1)).drop (0 + 2) =
                data.drop (i + 2) := by
              rw [show (0 + 2 : Nat) = 1 + 1 from rfl, List.drop_succ_cons]
              rw [List.drop_drop]
            rw [hd2]
            simp
    · rw [runLengthLoop, dif_neg (by omega)]
      rw [List.drop_eq_nil_of_le (by omega), runLengthLoop]
      simp

/-- C10: `DecodeRunLength` is total (a pure function of the bytes, no
error path): a length byte 128 stops decoding; 0–127 copies the next
length+1 bytes, clipped to what remains; 129–255 repeats the next byte
257−length times, or nothing when no byte remains; truncated input yields
the decoded prefix. -/
theorem decodeRunLength_stepwise :
    DecodeRunLength [] = [] ∧
    (∀ rest : List Nat, DecodeRunLength (128 :: rest) = []) ∧
    (∀ (n : Nat) (rest : List Nat), n < 128 →
      DecodeRunLength (n :: rest) =
        rest.take (n + 1) ++ DecodeRunLength (rest.drop (n + 1))) ∧
    (∀ n : Nat, 128 < n → DecodeRunLength [n] = []) ∧
    (∀ (n b : Nat) (rest : List Nat), 128 < n →
      DecodeRunLength (n :: b :: rest) =
        List.replicate (257 - n) b ++ DecodeRunLength rest) := by
  refine ⟨by rw [DecodeRunLength, runLengthLoop]; simp, ?_, ?_, ?_, ?_⟩
  · intro rest
    show runLengthLoop (128 :: rest) 0 [] = []
    rw [runLengthLoop, dif_pos (by simp)]
    simp
  · intro n rest hn
    show runLengthLoop (n :: rest) 0 [] = _
    rw [runLengthLoop, dif_pos (by simp)]
    rw [if_neg (by simp; omega), if_pos (by simpa using hn)]
    simp only [List.getD_cons_zero, List.drop_succ_cons, List.nil_append, List.length_cons]
    by_cases htr : 0 + 1 + (n + 1) > rest.length + 1
    · rw [if_pos htr]
      simp only [List.drop_zero]
      rw [runLengthLoop_drop (rest.length + 1) (n :: rest) (0 + 1 + (rest.length + 1 - (0 + 1)))
        _ (by simp)]
      have h1 : rest.take (rest.length + 1 - (0 + 1)) = rest.take (n + 1) := by
        rw [show rest.length + 1 - (0 + 1) = rest.length by omega, List.take_length,
          List.take_of_length_le (by omega)]
      have h2 : (n :: rest).drop (0 + 1 + (rest.length + 1 - (0 + 1))) = [] :=
        List.drop_eq_nil_of_le (by simp; omega)
      have h3 : rest.drop (n + 1) = [] := List.drop_eq_nil_of_le (by omega)
      rw [h1, h2, h3]
      rfl
    · rw [if_neg htr]
      simp only [List.drop_zero]
      rw [runLengthLoop_drop (rest.length + 1) (n :: rest) (0 + 1 + (n + 1)) _ (by simp)]
      have h2 : (n :: rest).drop (0 + 1 + (n + 1)) = rest.drop (n + 1) := by
        rw [show 0 + 1 + (n + 1) = (n + 1) + 1 by omega, List.drop_succ_cons]
      rw [h2]
      rfl
  · intro n hn
    show runLengthLoop [n] 0 [] = []
    rw [runLengthLoop, dif_pos (by simp)]
    rw [if_neg (by simp; omega), if_neg (by simp; omega), if_pos (by simp)]
  · intro n b rest hn
    show runLengthLoop (n :: b :: rest) 0 [] = _
    rw [runLengthLoop, dif_pos (by simp)]
    rw [if_neg (by simp; omega), if_neg (by simp; omega), if_neg (by simp)]
    simp only [List.getD_cons_zero, List.getD_cons_succ, List.nil_append]
    rw [runLengthLoop_drop (rest.length + 2) (n :: b :: rest) (0 + 2) _ (by simp)]
    rfl

/-- C10 witness: `[2, 10, 11, 12, 250, 7, 128, 9]` decodes to the three
literal bytes, then 7 repeated seven times, then stops at 128. -/
theorem decodeRunLength_stepwise_witness :
    DecodeRunLength (2 :: [10, 11, 12, 250, 7, 128, 9]) =
      [10, 11, 12].take (2 + 1) ++
        DecodeRunLength ([10, 11, 12, 250, 7, 128, 9].drop (2 + 1)) ∧
    (2 : Nat) < 128 ∧ (128 : Nat) < 250 ∧
    DecodeRunLength (250 :: 7 :: [128, 9]) =
      List.replicate (257 - 250) 7 ++ DecodeRunLength [128, 9] ∧
    DecodeRunLength (128 :: [9]) = [] :=
  ⟨decodeRunLength_stepwise.2.2.1 2 [10, 11, 12, 250, 7, 128, 9] (by decide),
   by decide, by decide,
   decodeRunLength_stepwise.2.2.2.2 250 7 [128, 9] (by decide),
   decodeRunLength_stepwise.2.1 [9]⟩

theorem byteAdd_byteSub (a b : Nat) (ha : a < 256) : byteAdd (byteSub a b) b = a := by
  unfold byteAdd byteSub
  omega

theorem subEncodeRow_length (bpp : Nat) (r : List Nat) :
    (subEncodeRow bpp r).length = r.length := by
  simp [subEncodeRow]

theorem applyPNGFilterStep_one (bpp : Nat) (prevRow dec : List Nat) (i v : Nat) :
    applyPNGFilterStep 1 bpp prevRow dec i v =
      if i ≥ bpp then byteAdd v (dec.getD (i - bpp) 0) else v := by
  simp [applyPNGFilterStep]

theorem pngFilterGo_sub (bpp : Nat) (hbpp : 1 ≤ bpp) (prevRow : List Nat) (r : List Nat)
    (hr : ∀ b ∈ r, b < 256) :
    ∀ (k j : Nat), j + k = r.length →
      pngFilterGo 1 bpp prevRow ((subEncodeRow bpp r).drop j) j (r.take j) = r := by
  intro k
  induction k with
  | zero =>
    intro j hj
    rw [List.drop_eq_nil_of_le (by rw [subEncodeRow_length]; omega)]
    rw [pngFilterGo, List.take_of_length_le (by omega)]
  | succ k ih =>
    intro j hj
    have hjlen : j < r.length := by omega
    have hjenc : j < (subEncodeRow bpp r).length := by rw [subEncodeRow_length]; omega
    rw [List.drop_eq_getElem_cons hjenc, pngFilterGo]
    have hphys : (subEncodeRow bpp r)[j] =
        if j < bpp then r.getD j 0 else byteSub (r.getD j 0) (r.getD (j - bpp) 0) := by
      simp only [subEncodeRow, List.getElem_map, List.getElem_range]
    have hstep : applyPNGFilterStep 1 bpp prevRow
        (r.take j ++ [(subEncodeRow bpp r)[j]]) j ((subEncodeRow bpp r)[j])
        = r[j] := by
      rw [hphys, applyPNGFilterStep_one]
      by_cases hb2 : j < bpp
      · have hge : ¬ (j ≥ bpp) := by omega
        rw [if_pos hb2, if_neg hge]
        rw [List.getD_eq_getElem r 0 hjlen]
      · have hge : j ≥ bpp := by omega
        have hsub : j - bpp < j := by omega
        have hlt : j - bpp < (r.take j).length := by
          simp only [List.length_take]
          omega
        rw [if_neg hb2, if_pos hge]
        have htake : (r.take j ++
              [byteSub (r.getD j 0) (r.getD (j - bpp) 0)]).getD (j - bpp) 0
            = r.getD (j - bpp) 0 := by
          rw [List.getD_append _ _ _ _ hlt]
          rw [List.getD_eq_getElem (r.take j) 0 hlt,
            List.getD_eq_getElem r 0 (show j - bpp < r.length by omega)]
          simp [List.getElem_take]
        rw [htake]
        rw [List.getD_eq_getElem r 0 hjlen, List.getD_eq_getElem r 0 (by omega)]
        exact byteAdd_byteSub _ _ (hr _ (List.getElem_mem hjlen))
    rw [hstep]
    have hacc : r.take j ++ [r[j]] = r.take (j + 1) := by
      rw [List.take_succ]
      simp [List.getElem?_eq_getElem hjlen]
    rw [hacc]
    exact ih (j + 1) (by omega)

theorem applyPNGFilter_sub (bpp : Nat) (hbpp : 1 ≤ bpp) (prevRow : List Nat)
    (r : List Nat) (hr : ∀ b ∈ r, b < 256) :
    applyPNGFilter (subEncodeRow bpp r) prevRow 1 bpp = r := by
  have := pngFilterGo_sub bpp hbpp prevRow r hr r.length 0 (by omega)
  simpa [applyPNGFilter] using this

theorem encodePNGRows_length (rowSize bpp : Nat) (_hrs : 1 ≤ rowSize) :
    ∀ (k : Nat) (data : List Nat), data.length = k * rowSize →
      (encodePNGRows rowSize bpp k data).length = k * (rowSize + 1) := by
  intro k
  induction k with
  | zero => intro data _; simp [encodePNGRows]
  | succ k ih =>
    intro data hlen
    have hexp : (k + 1) * rowSize = k * rowSize + rowSize := by ring
    rw [encodePNGRows]
    have h1 : (data.take rowSize).length = rowSize := by
      simp [List.length_take]
      omega
    have h2 : (data.drop rowSize).length = k * rowSize := by
      simp [List.length_drop]
      omega
    simp only [List.length_append, List.length_cons, List.length_nil, subEncodeRow_length,
      h1, ih (data.drop rowSize) h2]
    ring

theorem decode_encode_rows (rowSize bpp predictor : Nat) (_hp1 : 10 ≤ predictor)
    (_hp2 : predictor ≤ 14) (_hrs : 1 ≤ rowSize) (hbpp : 1 ≤ bpp) :
    ∀ (k : Nat) (data prevRow : List Nat), data.length = k * rowSize →
      (∀ b ∈ data, b < 256) →
      decodePNGRows rowSize bpp predictor k (encodePNGRows rowSize bpp k data) prevRow
        = data := by
  intro k
  induction k with
  | zero =>
    intro data prevRow hlen _
    have : data = [] := List.length_eq_zero.mp (by omega)
    subst this
    rfl
  | succ k ih =>
    intro data prevRow hlen hb
    have hexp : (k + 1) * rowSize = k * rowSize + rowSize := by ring
    have hrow : (data.take rowSize).length = rowSize := by
      simp [List.length_take]
      omega
    have hrest : (data.drop rowSize).length = k * rowSize := by
      simp [List.length_drop]
      omega
    rw [encodePNGRows, decodePNGRows]
    rw [if_neg (by simp)]
    have hft : ([1] ++ subEncodeRow bpp (data.take rowSize) ++
        encodePNGRows rowSize bpp k (data.drop rowSize)).getD 0 0 = 1 := rfl
    simp only [hft]
    have hov : (decide (10 ≤ predictor) && decide (predictor ≤ 14) &&
        decide ((1 : Nat) > 4)) = false := by
      simp
    simp only [hov, Bool.false_eq_true, if_false, List.cons_append, List.nil_append,
      List.drop_succ_cons, List.drop_zero]
    have htake : ((subEncodeRow bpp (data.take rowSize) ++
        encodePNGRows rowSize bpp k (data.drop rowSize)).take rowSize) =
        subEncodeRow bpp (data.take rowSize) :=
      List.take_left' (by rw [subEncodeRow_length, hrow])
    rw [htake]
    have hpad : rowSize - (subEncodeRow bpp (data.take rowSize)).length = 0 := by
      rw [subEncodeRow_length, hrow]
      omega
    rw [hpad]
    simp only [List.replicate_zero, List.append_nil]
    rw [applyPNGFilter_sub bpp hbpp prevRow (data.take rowSize)
      (fun b hb2 => hb b (List.take_subset rowSize data hb2))]
    have hdrop : ((subEncodeRow bpp (data.take rowSize) ++
        encodePNGRows rowSize bpp k (data.drop rowSize)).drop rowSize) =
        encodePNGRows rowSize bpp k (data.drop rowSize) :=
      List.drop_left' (by rw [subEncodeRow_length, hrow])
    rw [hdrop]
    rw [ih (data.drop rowSize) (data.take rowSize) hrest
      (fun b hb2 => hb b (List.drop_subset rowSize data hb2))]
    exact List.take_append_drop rowSize data

theorem pngBytesPerPixel_pos (params : DecodeParams) : 1 ≤ pngBytesPerPixel params := by
  have h2 : 1 ≤ pngColors params := by
    unfold pngColors
    split <;> simp_all <;> omega
  have h3 : 1 ≤ pngBpc params := by
    unfold pngBpc
    split <;> simp_all <;> omega
  unfold pngBytesPerPixel
  have hpos : 0 < pngColors params * pngBpc params := Nat.mul_pos (by omega) (by omega)
  omega

theorem pngRowSize_pos (params : DecodeParams) : 1 ≤ pngRowSize params := by
  have h1 : 1 ≤ pngColumns params := by
    unfold pngColumns
    split <;> simp_all <;> omega
  have h2 : 1 ≤ pngColors params := by
    unfold pngColors
    split <;> simp_all <;> omega
  have h3 : 1 ≤ pngBpc params := by
    unfold pngBpc
    split <;> simp_all <;> omega
  unfold pngRowSize
  have hpos : 0 < pngColumns params * pngColors params * pngBpc params :=
    Nat.mul_pos (Nat.mul_pos (by omega) (by omega)) (by omega)
  omega

/-- C6: for every predictor in 10..14 and every parameter set, PNG
predictor encoding (Sub filter per row with a filter byte) followed by PNG
predictor decoding with the same parameters restores an image plane that
is a whole number of rows exactly. -/
theorem pngPredictor_roundtrip (params : DecodeParams) (predictor : Nat)
    (data : List Nat) (k : Nat) (hp1 : 10 ≤ predictor) (hp2 : predictor ≤ 14)
    (hb : ∀ b ∈ data, b < 256) (hlen : data.length = k * pngRowSize params) :
    applyPNGPredictor (EncodePNGPredictor data params) params predictor = data := by
  have hrs := pngRowSize_pos params
  by_cases hd : data.length = 0
  · have : data = [] := List.length_eq_zero.mp hd
    subst this
    rfl
  · have hk : 1 ≤ k := by
      rcases Nat.eq_zero_or_pos k with hk0 | hk1
      · subst hk0
        simp only [Nat.zero_mul] at hlen
        omega
      · exact hk1
    have henc : EncodePNGPredictor data params =
        encodePNGRows (pngRowSize params) (pngBytesPerPixel params) k data := by
      unfold EncodePNGPredictor
      have hcond : (data.length == 0 || pngRowSize params == 0) = false := by
        simp only [Bool.or_eq_false_iff, beq_eq_false_iff_ne]
        exact ⟨hd, by omega⟩
      simp only [hcond, Bool.false_eq_true, if_false]
      rw [hlen, Nat.mul_div_cancel k (by omega)]
    rw [henc]
    have hel := encodePNGRows_length (pngRowSize params) (pngBytesPerPixel params) hrs k
      data hlen
    have hkr : 1 ≤ k * (pngRowSize params + 1) := by
      have := Nat.mul_le_mul hk (show 1 ≤ pngRowSize params + 1 by omega)
      omega
    unfold applyPNGPredictor
    have hcond2 : ((encodePNGRows (pngRowSize params) (pngBytesPerPixel params) k
        data).length == 0 || pngRowSize params + 1 == 0) = false := by
      simp only [Bool.or_eq_false_iff, beq_eq_false_iff_ne]
      exact ⟨by omega, by omega⟩
    simp only [hcond2, Bool.false_eq_true, if_false]
    have hnum : (encodePNGRows (pngRowSize params) (pngBytesPerPixel params) k data).length
        / (pngRowSize params + 1) = k := by
      rw [hel, Nat.mul_div_cancel k (by omega)]
    rw [hnum]
    rw [if_neg (by simp; omega)]
    exact decode_encode_rows (pngRowSize params) (pngBytesPerPixel params) predictor
      hp1 hp2 hrs (pngBytesPerPixel_pos params) k data
      (List.replicate (pngRowSize params) 0) hlen hb

/-- C6 witness: predictor 12 with Columns 3, Colors 1, 8 bits per
component on a two-row plane. -/
theorem pngPredictor_roundtrip_witness :
    applyPNGPredictor
      (EncodePNGPredictor [5, 250, 7, 8, 2, 255] ⟨12, 1, 8, 3, 1⟩) ⟨12, 1, 8, 3, 1⟩ 12
      = [5, 250, 7, 8, 2, 255] :=
  pngPredictor_roundtrip ⟨12, 1, 8, 3, 1⟩ 12 [5, 250, 7, 8, 2, 255] 2
    (by decide) (by decide) (by decide) (by decide)

theorem cmap4Loop_eq_find (c : CmapFormat4) (code : Nat) :
    ∀ (n : Nat) (lo hi : Int), (hi + 1 - lo).toNat ≤ n →
      cmap4Loop c code lo hi =
        (match cmap4FindSegment c code lo hi with
         | some mid => cmap4SegResult c code mid
         | none => 0) := by
  intro n
  induction n with
  | zero =>
    intro lo hi hn
    rw [cmap4Loop, dif_neg (by omega), cmap4FindSegment, dif_neg (by omega)]
  | succ k ih =>
    intro lo hi hn
    by_cases h : lo ≤ hi
    · rw [cmap4Loop, dif_pos h, cmap4FindSegment, dif_pos h]
      have hmid1 : lo ≤ (lo + hi) / 2 := by omega
      have hmid2 : (lo + hi) / 2 ≤ hi := by omega
      by_cases h1 : code > c.EndCode.getD ((lo + hi) / 2).toNat 0
      · simp only [if_pos h1]
        exact ih ((lo + hi) / 2 + 1) hi (by omega)
      · simp only [if_neg h1]
        by_cases h2 : code < c.StartCode.getD ((lo + hi) / 2).toNat 0
        · simp only [if_pos h2]
          exact ih lo ((lo + hi) / 2 - 1) (by omega)
        · simp only [if_neg h2]
    · rw [cmap4Loop, dif_neg h, cmap4FindSegment, dif_neg h]

/-- A parsed one-segment subtable whose segment [10,20] has
idRangeOffset 2, idDelta 5, and a glyphIdArray holding 0 at the computed
index. -/
def cmapC0 : CmapFormat4 := ⟨1, [20], [10], [5], [2], [0, 0]⟩

/-- Modelled from the spec: the claim's else-branch — the glyph index
fetched from glyphIdArray always gets idDelta added mod 65536 (no special
case for a fetched index of 0 or an out-of-range array index). -/
def cmap4ClaimResult (c : CmapFormat4) (code mid : Nat) : Nat :=
  let delta := c.IDDelta.getD mid 0
  if c.IDRangeOffset.getD mid 0 == 0 then
    (((code : Int) + delta) % 65536).toNat
  else
    let idx : Int := (c.IDRangeOffset.getD mid 0 : Int) / 2 +
      ((code : Int) - (c.StartCode.getD mid 0 : Int)) - ((c.SegCount : Int) - mid)
    (((c.GlyphIDArray.getD idx.toNat 0 : Int) + delta) % 65536).toNat

/-- C7 counterexample: on `cmapC0` at code 10, the binary search lands on
segment 0 and the claimed rule predicts glyph (0 + 5) mod 65536 = 5, but
the source returns 0 because the fetched glyphIdArray value is 0. -/
theorem cmap4_claim_counterexample :
    cmap4FindSegment cmapC0 10 0 ((cmapC0.SegCount : Int) - 1) = some 0 ∧
    cmap4ClaimResult cmapC0 10 0 = 5 ∧
    cmap4GetGlyphID cmapC0 10 = 0 ∧
    (5 : Nat) ≠ 0 := by
  refine ⟨?_, by decide, ?_, by decide⟩
  · rw [cmap4FindSegment]
    norm_num [cmapC0]
  · show cmap4Loop cmapC0 10 0 ((cmapC0.SegCount : Int) - 1) = 0
    rw [cmap4Loop]
    norm_num [cmapC0, cmap4SegResult]

/-- The glyphIdArray index the source computes for segment `mid`:
`idx := IDRangeOffset[mid]/2 + (code − StartCode[mid]) − (SegCount − mid)`. -/
def cmap4Idx (c : CmapFormat4) (code mid : Nat) : Int :=
  (c.IDRangeOffset.getD mid 0 : Int) / 2 +
    ((code : Int) - (c.StartCode.getD mid 0 : Int)) - ((c.SegCount : Int) - mid)

/-- C7 (amended): for a BMP code whose binary search on endCode lands on
segment `mid`: with idRangeOffset 0 the result is (code + idDelta) mod
65536; otherwise the glyph index is fetched from glyphIdArray at
idRangeOffset/2 + (code − startCode) − (segCount − mid), idDelta is added
mod 65536 when that index is in range and the fetched value is nonzero,
and the result is 0 when the index is out of range or the fetched value
is 0. -/
theorem cmap4_lookup_by_segment (c : CmapFormat4) (code mid : Nat)
    (hc : code ≤ 0xFFFF)
    (hfind : cmap4FindSegment c code 0 ((c.SegCount : Int) - 1) = some mid) :
    cmap4GetGlyphID c code = cmap4SegResult c code mid ∧
    (c.IDRangeOffset.getD mid 0 = 0 →
      cmap4GetGlyphID c code =
        (((code : Int) + c.IDDelta.getD mid 0) % 65536).toNat) ∧
    (c.IDRangeOffset.getD mid 0 ≠ 0 →
      (0 ≤ cmap4Idx c code mid → cmap4Idx c code mid < (c.GlyphIDArray.length : Int) →
        c.GlyphIDArray.getD (cmap4Idx c code mid).toNat 0 ≠ 0 →
        cmap4GetGlyphID c code =
          (((c.GlyphIDArray.getD (cmap4Idx c code mid).toNat 0 : Int) +
            c.IDDelta.getD mid 0) % 65536).toNat) ∧
      ((cmap4Idx c code mid < 0 ∨
          (c.GlyphIDArray.length : Int) ≤ cmap4Idx c code mid ∨
          c.GlyphIDArray.getD (cmap4Idx c code mid).toNat 0 = 0) →
        cmap4GetGlyphID c code = 0)) := by
  have hmain : cmap4GetGlyphID c code = cmap4SegResult c code mid := by
    unfold cmap4GetGlyphID
    rw [if_neg (by omega)]
    rw [cmap4Loop_eq_find c code (((c.SegCount : Int) - 1) + 1 - 0).toNat 0
      ((c.SegCount : Int) - 1) (by omega)]
    rw [hfind]
  refine ⟨hmain, ?_, ?_⟩
  · intro hz
    rw [hmain]
    simp only [cmap4SegResult]
    rw [if_pos (beq_iff_eq.mpr hz)]
  · intro hnz
    constructor
    · intro hge hlt hg
      simp only [cmap4Idx] at hge hlt hg
      rw [hmain]
      simp only [cmap4SegResult, cmap4Idx]
      rw [if_neg (fun hcon => hnz (beq_iff_eq.mp hcon)),
        if_pos (And.intro hge hlt), if_pos hg]
    · intro hbad
      simp only [cmap4Idx] at hbad
      rw [hmain]
      simp only [cmap4SegResult, cmap4Idx]
      rw [if_neg (fun hcon => hnz (beq_iff_eq.mp hcon))]
      rcases hbad with hbad | hbad | hbad
      · rw [if_neg (fun hcon => absurd hbad (by omega))]
      · rw [if_neg (fun hcon => absurd hbad (by omega))]
      · by_cases hb : 0 ≤ (c.IDRangeOffset.getD mid 0 : Int) / 2 +
            ((code : Int) - (c.StartCode.getD mid 0 : Int)) -
            ((c.SegCount : Int) - mid) ∧
            (c.IDRangeOffset.getD mid 0 : Int) / 2 +
            ((code : Int) - (c.StartCode.getD mid 0 : Int)) -
            ((c.SegCount : Int) - mid) < (c.GlyphIDArray.length : Int)
        · rw [if_pos hb, if_neg (not_not_intro hbad)]
        · rw [if_neg hb]

/-- A parsed one-segment subtable with idRangeOffset 0 and idDelta 7. -/
def cmapC1 : CmapFormat4 := ⟨1, [20], [10], [7], [0], []⟩

/-- C7 (amended) witness: on `cmapC1` at code 15 the search finds segment
0, idRangeOffset is 0, and the lookup returns (15 + 7) mod 65536 = 22. -/
theorem cmap4_lookup_by_segment_witness :
    cmapC1.IDRangeOffset.getD 0 0 = 0 ∧ cmap4GetGlyphID cmapC1 15 = 22 := by
  refine ⟨by decide, ?_⟩
  have h := (cmap4_lookup_by_segment cmapC1 15 0 (by decide)
    (by rw [cmap4FindSegment]; norm_num [cmapC1])).2.1 (by decide)
  rw [h]
  decide

/-- C8 witness: the pre-multiplication facts at the default state with
tx = 3, ty = 4. -/
theorem td_premultiplies_translation_witness :
    (let st := currentState NewInterpreter
     let r := currentState (executeOp P0 NewInterpreter ⟨"Td", [.num 3, .num 4]⟩).1
     r.TState.LineMatrix = (Translate 3 4).Multiply st.TState.LineMatrix ∧
     r.TState.TextMatrix = r.TState.LineMatrix) ∧
    (let st := currentState NewInterpreter
     let r := currentState (executeOp P0 NewInterpreter ⟨"TD", [.num 3, .num 4]⟩).1
     r.TState.LineMatrix = (Translate 3 4).Multiply st.TState.LineMatrix ∧
     r.TState.TextMatrix = r.TState.LineMatrix) ∧
    (let st := currentState NewInterpreter
     let r := currentState (executeOp P0 NewInterpreter ⟨"T*", []⟩).1
     r.TState.LineMatrix =
       (Translate 0 (-st.TState.Leading)).Multiply st.TState.LineMatrix ∧
     r.TState.TextMatrix = r.TState.LineMatrix) ∧
    (let st := currentState NewInterpreter
     let r := currentState (executeOp P0 NewInterpreter ⟨"\x27", [.str "hi"]⟩).1
     r.TState.LineMatrix =
       (Translate 0 (-st.TState.Leading)).Multiply st.TState.LineMatrix ∧
     r.TState.TextMatrix = r.TState.LineMatrix) ∧
    (let st := currentState NewInterpreter
     let r := currentState (executeOp P0 NewInterpreter ⟨"\x22", [.num 1, .num 2, .str "hi"]⟩).1
     r.TState.LineMatrix =
       (Translate 0 (-st.TState.Leading)).Multiply st.TState.LineMatrix ∧
     r.TState.TextMatrix = r.TState.LineMatrix) :=
  td_premultiplies_translation P0 NewInterpreter 3 4 1 2 "hi" (by simp [NewInterpreter])

end Gumgum
